import Mathlib

/-!
# OpenTESArena: `MathUtils.cpp` and `CityDataFile.cpp`

A shallow embedding of `src/Math/MathUtils.cpp` and of the coordinate and ID helpers of
`src/Assets/CityDataFile.cpp`.

* `double` is read as an element of a linearly ordered field `K` (exact arithmetic), so the
  theorems speak about the real-number meaning of the code; rounding is outside the model.
* `<cmath>` functions (`sqrt`, `atan2`, `tan`, `atan`) and the constants of `Constants.h`
  (`Epsilon`, `TwoPi`, `DegToRad`, `RadToDeg`) are parameters of the functions that use them.
* A failed `DebugAssert` and a division whose divisor is zero have no value in exact
  arithmetic; both are reported as a `Fault`.
* Where a claim speaks about NaN arguments or about the rounded result (`fullAtan2`,
  `verticalFovToHorizontalFov`), `WithNaN` embeds the same functions over `Dbl`, a double that
  is NaN or a number, with the rounding of every sum and product as a parameter.
* `int` is a 32-bit two's complement integer: every arithmetic result is reduced by `wrapInt`,
  `/` truncates towards zero (`Int.tdiv`), `>>` is the arithmetic shift. Theorems about `int`
  code state the absence of overflow as hypotheses.
-/

namespace OpenTESArena

/-- Ways in which a call can fail to produce a value: a `DebugAssert` that does not hold, or a
quotient whose divisor is zero. -/
inductive Fault where
  | assertion
  | divisionByZero
  deriving DecidableEq

/-- Modelled from the spec: `Vector3.h` is not part of the sources. A real-valued vector of
three components supporting addition, subtraction, scalar multiply, dot product, cross
product, length and normalization. -/
@[ext]
structure Double3 (K : Type) where
  x : K
  y : K
  z : K
  deriving DecidableEq

namespace Double3

variable {K : Type} [LinearOrderedField K]

/-- Modelled from the spec: component-wise addition (`operator+`). -/
def add (a b : Double3 K) : Double3 K :=
  ⟨a.x + b.x, a.y + b.y, a.z + b.z⟩

/-- Modelled from the spec: component-wise subtraction (`operator-`). -/
def sub (a b : Double3 K) : Double3 K :=
  ⟨a.x - b.x, a.y - b.y, a.z - b.z⟩

/-- Modelled from the spec: scalar multiply (`operator*` with a scalar on the right). -/
def scale (a : Double3 K) (m : K) : Double3 K :=
  ⟨a.x * m, a.y * m, a.z * m⟩

instance : Add (Double3 K) := ⟨add⟩

instance : Sub (Double3 K) := ⟨sub⟩

instance : HMul (Double3 K) K (Double3 K) := ⟨scale⟩

/-- Modelled from the spec: dot product. -/
def dot (a b : Double3 K) : K :=
  a.x * b.x + a.y * b.y + a.z * b.z

/-- Modelled from the spec: cross product. -/
def cross (a b : Double3 K) : Double3 K :=
  ⟨a.y * b.z - a.z * b.y, a.z * b.x - a.x * b.z, a.x * b.y - a.y * b.x⟩

/-- Modelled from the spec: squared length. -/
def lengthSquared (a : Double3 K) : K :=
  a.x * a.x + a.y * a.y + a.z * a.z

/-- Modelled from the spec: length, the square root of the squared length. -/
def length (sqrt : K → K) (a : Double3 K) : K :=
  sqrt a.lengthSquared

/-- Modelled from the spec: normalization, the vector scaled by the reciprocal of its length.
A zero length leaves the reciprocal without a value. -/
def normalized (sqrt : K → K) (a : Double3 K) : Except Fault (Double3 K) :=
  let len := a.length sqrt
  if len = 0 then .error .divisionByZero
  else
    let lenRecip := 1 / len
    .ok (a * lenRecip)

/-- Modelled from the spec: a vector is normalized when it is unit-length. -/
def isNormalized (sqrt : K → K) (a : Double3 K) : Bool :=
  decide (a.length sqrt = 1)

end Double3

section MathUtils

variable {K : Type} [LinearOrderedField K]

/-- `MathUtils::almostZero`. The source declares the return type `double`, so the comparison
result is converted to `1.0` or `0.0`. -/
def almostZero (Epsilon : K) (value : K) : K :=
  if |value| < Epsilon then 1 else 0

/-- `MathUtils::almostEqual`. -/
def almostEqual (Epsilon : K) (a b : K) : K :=
  almostZero Epsilon (a - b)

/-- `MathUtils::fullAtan2`. -/
def fullAtan2 (atan2 : K → K → K) (TwoPi : K) (y x : K) : K :=
  let angle := atan2 y x
  if angle ≥ 0 then angle else TwoPi + angle

/-- `MathUtils::verticalFovToZoom`. The tangent may be zero, in which case the quotient has no
value. -/
def verticalFovToZoom (tan : K → K) (DegToRad : K) (fovY : K) : Except Fault K :=
  let divisor := tan ((fovY * (1 / 2)) * DegToRad)
  if divisor = 0 then .error .divisionByZero else .ok (1 / divisor)

/-- `MathUtils::verticalFovToHorizontalFov`. -/
def verticalFovToHorizontalFov (tan atan : K → K) (DegToRad RadToDeg : K)
    (fovY aspectRatio : K) : Except Fault K :=
  if ¬ (fovY > 0) then .error .assertion
  else if ¬ (fovY < 180) then .error .assertion
  else if ¬ (aspectRatio > 0) then .error .assertion
  else
    let halfDim := aspectRatio * tan ((fovY * (1 / 2)) * DegToRad)
    .ok ((2 * atan halfDim) * RadToDeg)

/-- `MathUtils::rayPlaneIntersection`. The outer result is the fault, if any; the inner option
is `none` for `return false` and `some p` for `return true` with `*outPoint = p`. -/
def rayPlaneIntersection (sqrt : K → K) (Epsilon : K)
    (rayStart rayDirection planeOrigin planeNormal : Double3 K) :
    Except Fault (Option (Double3 K)) :=
  if ¬ rayDirection.isNormalized sqrt then .error .assertion
  else if ¬ planeNormal.isNormalized sqrt then .error .assertion
  else
    let denominator := rayDirection.dot planeNormal
    if almostZero Epsilon denominator = 0 then
      let projection := planeOrigin - rayStart
      if denominator = 0 then .error .divisionByZero
      else
        let t := projection.dot planeNormal / denominator
        if t ≥ 0 then
          -- An intersection exists. Find it.
          .ok (some (rayStart + (rayDirection * t)))
        else .ok none
    else .ok none

/-- The point-in-quad test of `MathUtils::rayQuadIntersection` (the body of its `if`), for a
plane hit point `hitPoint`. -/
def quadBoundsCheck (v0 v1 v2 v3 hitPoint : Double3 K) : Bool :=
  let a := (v1 - v0).cross (hitPoint - v0)
  let b := (v2 - v1).cross (hitPoint - v1)
  let c := (v3 - v2).cross (hitPoint - v2)
  let d := (v0 - v3).cross (hitPoint - v3)
  let ab := a.dot b
  let bc := b.dot c
  let cd := c.dot d
  decide ((ab * bc) ≥ 0) && decide ((bc * cd) ≥ 0)

/-- `MathUtils::rayQuadIntersection`. -/
def rayQuadIntersection (sqrt : K → K) (Epsilon : K)
    (rayStart rayDirection v0 v1 v2 : Double3 K) : Except Fault (Option (Double3 K)) :=
  let v3 := v0 + (v2 - v1)
  -- Calculate the normal of the plane which contains the quad.
  match ((v2 - v0).cross (v1 - v0)).normalized sqrt with
  | .error f => .error f
  | .ok normal =>
    -- Get the intersection of the ray and the plane that contains the quad.
    match rayPlaneIntersection sqrt Epsilon rayStart rayDirection v0 normal with
    | .error f => .error f
    | .ok none => .ok none
    | .ok (some hitPoint) =>
      if quadBoundsCheck v0 v1 v2 v3 hitPoint then .ok (some hitPoint) else .ok none

/-- `std::clamp(v, lo, hi)`. -/
def clamp (v lo hi : K) : K :=
  if v < lo then lo else if hi < v then hi else v

/-- Result of `MathUtils::distanceBetweenLineSegments`: the returned distance and the two
reference parameters `s` and `t` it writes. -/
structure SegmentDistance (K : Type) where
  distance : K
  s : K
  t : K
  deriving DecidableEq

/-- The divisor `ac - bb` of both quotients in `MathUtils::distanceBetweenLineSegments`. -/
def segmentDivisor (p0 p1 q0 q1 : Double3 K) : K :=
  let u := p1 - p0
  let v := q1 - q0
  let a := u.dot u
  let b := u.dot v
  let c := v.dot v
  a * c - b * b

/-- `MathUtils::distanceBetweenLineSegments`. -/
def distanceBetweenLineSegments (sqrt : K → K) (p0 p1 q0 q1 : Double3 K) :
    Except Fault (SegmentDistance K) :=
  let u := p1 - p0
  let v := q1 - q0
  -- These values are needed for the calculation of values s and t.
  let p0q0 := p0 - q0
  let a := u.dot u
  let b := u.dot v
  let c := v.dot v
  let d := u.dot p0q0
  let e := v.dot p0q0
  let be := b * e
  let cd := c * d
  let ac := a * c
  let ae := a * e
  let bd := b * d
  let bb := b * b
  if ac - bb = 0 then .error .divisionByZero
  else
    let s := clamp ((be - cd) / (ac - bb)) 0 1
    let t := clamp ((ae - bd) / (ac - bb)) 0 1
    -- Psc and Qtc, as the source computes them (both from p0).
    let Psc := p0 + (u * s)
    let Qtc := p0 + (v * t)
    .ok ⟨(Psc - Qtc).length sqrt, s, t⟩

end MathUtils

section Specification

variable {K : Type} [LinearOrderedField K]

/-- What the theorems need of `std::sqrt`: on non-negative arguments it is the non-negative
square root. -/
def IsSqrt (sqrt : K → K) : Prop :=
  ∀ r : K, 0 ≤ r → 0 ≤ sqrt r ∧ sqrt r * sqrt r = r

/-- The unit normal of the plane through `v0`, `v1`, `v2`, as `rayQuadIntersection` computes
it when the three points are not collinear. -/
def quadNormal (sqrt : K → K) (v0 v1 v2 : Double3 K) : Double3 K :=
  ((v2 - v0).cross (v1 - v0)) * (1 / ((v2 - v0).cross (v1 - v0)).length sqrt)

/-- The centroid `(v0 + v1 + v2 + v3) / 4` of the quad, with `v3 = v0 + (v2 - v1)`. -/
def quadCentroid (v0 v1 v2 : Double3 K) : Double3 K :=
  (v0 + v1 + v2 + (v0 + (v2 - v1))) * (1 / 4 : K)

end Specification

section CityDataFile

/-- The value a 32-bit two's complement `int` holds for the arithmetic result `x`. -/
def wrapInt (x : Int) : Int :=
  (x + 2147483648) % 4294967296 - 2147483648

/-- Modelled from the spec: `Int2` of `Vector2.h`, which is not part of the sources; an
integer point with `int` coordinates `x` and `y`. -/
@[ext]
structure Int2 where
  x : Int
  y : Int
  deriving DecidableEq

/-- Modelled from the spec: `Rect.h` is not part of the sources; a rectangle built as
`Rect(x, y, w, h)`, with left edge `x`, top edge `y`, width `w` and height `h`. -/
structure Rect where
  x : Int
  y : Int
  w : Int
  h : Int
  deriving DecidableEq

/-- Modelled from the spec: `Rect::getLeft`. -/
def Rect.getLeft (rect : Rect) : Int :=
  rect.x

/-- Modelled from the spec: `Rect::getTop`. -/
def Rect.getTop (rect : Rect) : Int :=
  rect.y

/-- Modelled from the spec: `Rect::getWidth`. -/
def Rect.getWidth (rect : Rect) : Int :=
  rect.w

/-- Modelled from the spec: `Rect::getHeight`. -/
def Rect.getHeight (rect : Rect) : Int :=
  rect.h

/-- Modelled from the spec: the fields of `CityDataFile::ProvinceData` (declared in
`CityDataFile.h`, which is not part of the sources) that `getGlobalQuarter` reads. -/
structure ProvinceData where
  globalX : Int
  globalY : Int
  globalW : Int
  globalH : Int
  deriving DecidableEq

/-- `CityDataFile::getGlobalCityID`. -/
def getGlobalCityID (localCityID provinceID : Int) : Int :=
  wrapInt (wrapInt (provinceID <<< (5 : Int)) + localCityID)

/-- `CityDataFile::getLocalCityAndProvinceID`. -/
def getLocalCityAndProvinceID (globalCityID : Int) : Int × Int :=
  (Int.land globalCityID 0x1F, globalCityID >>> (5 : Nat))

/-- `CityDataFile::getDistance`. -/
def getDistance (p1 p2 : Int2) : Int :=
  let dx := wrapInt |wrapInt (p1.x - p2.x)|
  let dy := wrapInt |wrapInt (p1.y - p2.y)|
  wrapInt (max dx dy + (min dx dy).tdiv 4)

/-- `CityDataFile::localPointToGlobal`. -/
def localPointToGlobal (localPoint : Int2) (rect : Rect) : Int2 :=
  let globalX := wrapInt
    ((wrapInt (localPoint.x * (wrapInt (rect.getWidth * 100)).tdiv 320)).tdiv 100
      + rect.getLeft)
  let globalY := wrapInt
    ((wrapInt (localPoint.y * (wrapInt (rect.getHeight * 100)).tdiv 200)).tdiv 100
      + rect.getTop)
  ⟨globalX, globalY⟩

/-- `CityDataFile::globalPointToLocal`. A zero scale divisor leaves the quotient without a
value. -/
def globalPointToLocal (globalPoint : Int2) (rect : Rect) : Except Fault Int2 :=
  let divisorX := (wrapInt (rect.getWidth * 100)).tdiv 320
  let divisorY := (wrapInt (rect.getHeight * 100)).tdiv 200
  if divisorX = 0 then .error .divisionByZero
  else
    let localX := wrapInt
      ((wrapInt (wrapInt (globalPoint.x - rect.getLeft) * 100)).tdiv divisorX)
    if divisorY = 0 then .error .divisionByZero
    else
      let localY := wrapInt
        ((wrapInt (wrapInt (globalPoint.y - rect.getTop) * 100)).tdiv divisorY)
      .ok ⟨localX, localY⟩

/-- Modelled from the spec: `Rect::contains` of the absent `Rect.h`, a point is contained in a
rectangle when it lies between the left and top edges (inclusive) and the right and bottom
edges (exclusive). The theorems about `getGlobalQuarter` hold for any containment test; this
one is used for concrete inputs. -/
def Rect.contains (rect : Rect) (point : Int2) : Bool :=
  decide (point.x ≥ rect.getLeft) && decide (point.y ≥ rect.getTop) &&
    decide (point.x < rect.getLeft + rect.getWidth) &&
    decide (point.y < rect.getTop + rect.getHeight)

/-- The rectangle `getGlobalQuarter` builds for a province. -/
def provinceRectOf (province : ProvinceData) : Rect :=
  Rect.mk province.globalX province.globalY province.globalW province.globalH

/-- The `std::find_if` of `CityDataFile::getGlobalQuarter`: the position of the first
province whose rectangle contains the point, together with the rectangle the predicate left
in `provinceRect`. `Rect::contains` is not part of the sources and is a parameter. -/
def findProvince (contains : Rect → Int2 → Bool) (globalPoint : Int2) :
    List ProvinceData → Option (Nat × Rect)
  | [] => none
  | province :: rest =>
    let provinceRect := provinceRectOf province
    if contains provinceRect globalPoint then some (0, provinceRect)
    else
      match findProvince contains globalPoint rest with
      | none => none
      | some (distance, found) => some (distance + 1, found)

/-- `CityDataFile::getGlobalQuarter`. -/
def getGlobalQuarter (contains : Rect → Int2 → Bool) (provinces : List ProvinceData)
    (globalPoint : Int2) : Except Fault Int :=
  -- Find the province that contains the global point.
  match findProvince contains globalPoint provinces with
  | none => .error .assertion
  | some (distance, provinceRect) =>
    match globalPointToLocal globalPoint provinceRect with
    | .error f => .error f
    | .ok localPoint =>
      let provinceID := wrapInt distance
      -- Get the global quarter index.
      let index := wrapInt (provinceID * 4)
      let inRightHalf := decide (localPoint.x ≥ 160)
      let inBottomHalf := decide (localPoint.y ≥ 100)
      -- Add to the index depending on which quadrant the local point is in.
      let index := if inRightHalf then wrapInt (index + 1) else index
      let index := if inBottomHalf then wrapInt (index + 2) else index
      .ok index

end CityDataFile

section CitySpecification

/-- The value `x` is representable as a 32-bit `int`. -/
def InInt (x : Int) : Prop :=
  -2147483648 ≤ x ∧ x ≤ 2147483647

/-- No `int` overflow in `localPointToGlobal localPoint rect`: the scaled sizes, the scaled
coordinates and the resulting global coordinates are representable. -/
def LocalToGlobalInRange (localPoint : Int2) (rect : Rect) : Prop :=
  InInt (rect.getWidth * 100) ∧ InInt (rect.getHeight * 100) ∧
  InInt (localPoint.x * (rect.getWidth * 100 / 320)) ∧
  InInt (localPoint.y * (rect.getHeight * 100 / 200)) ∧
  InInt (localPoint.x * (rect.getWidth * 100 / 320) / 100 + rect.getLeft) ∧
  InInt (localPoint.y * (rect.getHeight * 100 / 200) / 100 + rect.getTop)

/-- The quarter offset `getGlobalQuarter` adds for a local point: `1` for the right half plus
`2` for the bottom half. -/
def quarterOf (localPoint : Int2) : Int :=
  (if localPoint.x ≥ 160 then 1 else 0) + (if localPoint.y ≥ 100 then 2 else 0)

end CitySpecification

section DoubleWithNaN

/-- A `double` that is NaN or a number. Infinities are not represented; every arithmetic
result on numbers is passed through a rounding function, a parameter of the operations
(the identity gives exact arithmetic). Used where a claim speaks about NaN arguments or about
the rounded result. -/
inductive Dbl (K : Type) where
  | nan : Dbl K
  | num (v : K) : Dbl K

namespace Dbl

variable {K : Type} [LinearOrderedField K]

/-- The comparison `a > b` of two doubles; false when either is NaN. -/
def gt : Dbl K → Dbl K → Bool
  | num a, num b => decide (a > b)
  | _, _ => false

/-- The comparison `a < b` of two doubles; false when either is NaN. -/
def lt : Dbl K → Dbl K → Bool
  | num a, num b => decide (a < b)
  | _, _ => false

/-- The comparison `a >= b` of two doubles; false when either is NaN. -/
def ge : Dbl K → Dbl K → Bool
  | num a, num b => decide (a ≥ b)
  | _, _ => false

/-- The comparison `a <= b` of two doubles; false when either is NaN. -/
def le : Dbl K → Dbl K → Bool
  | num a, num b => decide (a ≤ b)
  | _, _ => false

/-- The sum of two doubles: NaN when either is NaN, else the rounded exact sum. -/
def add (round : K → K) : Dbl K → Dbl K → Dbl K
  | num a, num b => num (round (a + b))
  | _, _ => nan

/-- The product of two doubles: NaN when either is NaN, else the rounded exact product. -/
def mul (round : K → K) : Dbl K → Dbl K → Dbl K
  | num a, num b => num (round (a * b))
  | _, _ => nan

/-- A `<cmath>` function of one argument that is `f` on numbers and NaN for NaN. -/
def lift (f : K → K) : Dbl K → Dbl K
  | num a => num (f a)
  | nan => nan

/-- A `<cmath>` function of two arguments that is `f` on numbers and NaN when either argument
is NaN. -/
def lift2 (f : K → K → K) : Dbl K → Dbl K → Dbl K
  | num a, num b => num (f a b)
  | _, _ => nan

end Dbl

namespace WithNaN

variable {K : Type} [LinearOrderedField K]

/-- `MathUtils::fullAtan2` on doubles with NaN and rounding. -/
def fullAtan2 (round : K → K) (atan2 : Dbl K → Dbl K → Dbl K) (TwoPi : Dbl K)
    (y x : Dbl K) : Dbl K :=
  let angle := atan2 y x
  if Dbl.ge angle (.num 0) then angle else Dbl.add round TwoPi angle

/-- `MathUtils::verticalFovToHorizontalFov` on doubles with NaN and rounding. -/
def verticalFovToHorizontalFov (round : K → K) (tan atan : Dbl K → Dbl K)
    (DegToRad RadToDeg : Dbl K) (fovY aspectRatio : Dbl K) : Except Fault (Dbl K) :=
  if ¬ Dbl.gt fovY (.num 0) then .error .assertion
  else if ¬ Dbl.lt fovY (.num 180) then .error .assertion
  else if ¬ Dbl.gt aspectRatio (.num 0) then .error .assertion
  else
    let halfDim := Dbl.mul round aspectRatio
      (tan (Dbl.mul round (Dbl.mul round fovY (.num (1 / 2))) DegToRad))
    .ok (Dbl.mul round (Dbl.mul round (.num 2) (atan halfDim)) RadToDeg)

end WithNaN

end DoubleWithNaN


section RayPlane

variable {K : Type} [LinearOrderedField K]

/-- With unit direction and normal and a positive `Epsilon`, `rayPlaneIntersection` is a plain
case distinction on the divisor and on `t`. -/
theorem rayPlaneIntersection_eq (sqrt : K → K) (Epsilon : K) (hEps : 0 < Epsilon)
    (rayStart rayDirection planeOrigin planeNormal : Double3 K)
    (hd : rayDirection.length sqrt = 1) (hn : planeNormal.length sqrt = 1) :
    rayPlaneIntersection sqrt Epsilon rayStart rayDirection planeOrigin planeNormal =
      if Epsilon ≤ |rayDirection.dot planeNormal| ∧
          0 ≤ (planeOrigin - rayStart).dot planeNormal / rayDirection.dot planeNormal then
        .ok (some (rayStart +
          rayDirection * ((planeOrigin - rayStart).dot planeNormal / rayDirection.dot planeNormal)))
      else .ok none := by
  unfold rayPlaneIntersection
  simp only [Double3.isNormalized, hd, hn, decide_True, not_true_eq_false, if_false, almostZero]
  by_cases hlt : |rayDirection.dot planeNormal| < Epsilon
  · have hnot : ¬ (Epsilon ≤ |rayDirection.dot planeNormal|) := not_le.mpr hlt
    simp [hlt, hnot]
  · have hge : Epsilon ≤ |rayDirection.dot planeNormal| := not_lt.mp hlt
    have hne : rayDirection.dot planeNormal ≠ 0 := by
      intro h0
      rw [h0, abs_zero] at hge
      exact absurd hEps (not_lt.mpr hge)
    simp [hlt, hge, hne]


/-- C6: for unit `rayDirection` and `planeNormal`, a ray that is near-parallel to the plane
(`|rayDirection . planeNormal| < Epsilon`), and in particular, for a positive `Epsilon`, a ray
orthogonal to the normal, gets no intersection (`return false`). -/
theorem rayPlaneIntersection_parallel (sqrt : K → K) (Epsilon : K)
    (rayStart rayDirection planeOrigin planeNormal : Double3 K)
    (hd : rayDirection.length sqrt = 1) (hn : planeNormal.length sqrt = 1) :
    (|rayDirection.dot planeNormal| < Epsilon →
      rayPlaneIntersection sqrt Epsilon rayStart rayDirection planeOrigin planeNormal
        = .ok none) ∧
    (0 < Epsilon → rayDirection.dot planeNormal = 0 →
      rayPlaneIntersection sqrt Epsilon rayStart rayDirection planeOrigin planeNormal
        = .ok none) := by
  have key : |rayDirection.dot planeNormal| < Epsilon →
      rayPlaneIntersection sqrt Epsilon rayStart rayDirection planeOrigin planeNormal
        = .ok none := by
    intro hlt
    unfold rayPlaneIntersection
    simp [Double3.isNormalized, hd, hn, almostZero, hlt]
  refine ⟨key, fun hEps h0 => key ?_⟩
  rw [h0, abs_zero]
  exact hEps

/-- Witness for C6: a ray along the x axis against the plane `z = 0`. -/
theorem rayPlaneIntersection_parallel_witness :
    Double3.length Real.sqrt (⟨1, 0, 0⟩ : Double3 ℝ) = 1 ∧
    Double3.length Real.sqrt (⟨0, 0, 1⟩ : Double3 ℝ) = 1 ∧
    Double3.dot (⟨1, 0, 0⟩ : Double3 ℝ) ⟨0, 0, 1⟩ = 0 ∧
    rayPlaneIntersection Real.sqrt (1 / 1000000 : ℝ) ⟨0, 0, 1⟩ ⟨1, 0, 0⟩ ⟨0, 0, 0⟩ ⟨0, 0, 1⟩
      = .ok none :=
  have hd : Double3.length Real.sqrt (⟨1, 0, 0⟩ : Double3 ℝ) = 1 := by
    simp [Double3.length, Double3.lengthSquared]
  have hn : Double3.length Real.sqrt (⟨0, 0, 1⟩ : Double3 ℝ) = 1 := by
    simp [Double3.length, Double3.lengthSquared]
  have h0 : Double3.dot (⟨1, 0, 0⟩ : Double3 ℝ) ⟨0, 0, 1⟩ = 0 := by
    simp [Double3.dot]
  ⟨hd, hn, h0,
    (rayPlaneIntersection_parallel Real.sqrt (1 / 1000000 : ℝ) ⟨0, 0, 1⟩ ⟨1, 0, 0⟩ ⟨0, 0, 0⟩
      ⟨0, 0, 1⟩ hd hn).2 (by norm_num) h0⟩

/-- C7: for unit `rayDirection` and `planeNormal`, a positive `Epsilon` and a ray that is not
near-parallel to the plane, a negative intersection parameter
`t = ((planeOrigin - rayStart) . planeNormal) / (rayDirection . planeNormal)` gives no
intersection (`return false`). -/
theorem rayPlaneIntersection_behind (sqrt : K → K) (Epsilon : K) (hEps : 0 < Epsilon)
    (rayStart rayDirection planeOrigin planeNormal : Double3 K)
    (hd : rayDirection.length sqrt = 1) (hn : planeNormal.length sqrt = 1)
    (_hpar : Epsilon ≤ |rayDirection.dot planeNormal|)
    (ht : (planeOrigin - rayStart).dot planeNormal / rayDirection.dot planeNormal < 0) :
    rayPlaneIntersection sqrt Epsilon rayStart rayDirection planeOrigin planeNormal
      = .ok none := by
  rw [rayPlaneIntersection_eq sqrt Epsilon hEps _ _ _ _ hd hn]
  have hnot : ¬ (0 ≤ (planeOrigin - rayStart).dot planeNormal / rayDirection.dot planeNormal) :=
    not_le.mpr ht
  simp [hnot]

/-- Witness for C7: the ray starts above the plane `z = 0` and points upwards. -/
theorem rayPlaneIntersection_behind_witness :
    rayPlaneIntersection Real.sqrt (1 / 1000000 : ℝ) ⟨0, 0, 1⟩ ⟨0, 0, 1⟩ ⟨0, 0, 0⟩ ⟨0, 0, 1⟩
      = .ok none :=
  rayPlaneIntersection_behind Real.sqrt (1 / 1000000 : ℝ) (by norm_num) ⟨0, 0, 1⟩ ⟨0, 0, 1⟩
    ⟨0, 0, 0⟩ ⟨0, 0, 1⟩
    (by simp [Double3.length, Double3.lengthSquared])
    (by simp [Double3.length, Double3.lengthSquared])
    (by norm_num [Double3.dot])
    (by
      show Double3.dot (Double3.sub ⟨0, 0, 0⟩ ⟨0, 0, 1⟩) (⟨0, 0, 1⟩ : Double3 ℝ)
        / Double3.dot (⟨0, 0, 1⟩ : Double3 ℝ) ⟨0, 0, 1⟩ < 0
      norm_num [Double3.dot, Double3.sub])

/-- C8: for unit `rayDirection` and `planeNormal` and a positive `Epsilon`,
`rayPlaneIntersection` returns an intersection exactly when the ray is not near-parallel to
the plane and `t = ((planeOrigin - rayStart) . planeNormal) / (rayDirection . planeNormal)` is
non-negative; the point it then returns is `rayStart + rayDirection * t`, and in every other
case it returns no intersection. -/
theorem rayPlaneIntersection_iff (sqrt : K → K) (Epsilon : K) (hEps : 0 < Epsilon)
    (rayStart rayDirection planeOrigin planeNormal : Double3 K)
    (hd : rayDirection.length sqrt = 1) (hn : planeNormal.length sqrt = 1) :
    ((∃ p, rayPlaneIntersection sqrt Epsilon rayStart rayDirection planeOrigin planeNormal
        = .ok (some p)) ↔
      (Epsilon ≤ |rayDirection.dot planeNormal| ∧
        0 ≤ (planeOrigin - rayStart).dot planeNormal / rayDirection.dot planeNormal)) ∧
    ((Epsilon ≤ |rayDirection.dot planeNormal| ∧
        0 ≤ (planeOrigin - rayStart).dot planeNormal / rayDirection.dot planeNormal) →
      rayPlaneIntersection sqrt Epsilon rayStart rayDirection planeOrigin planeNormal
        = .ok (some (rayStart + rayDirection *
            ((planeOrigin - rayStart).dot planeNormal / rayDirection.dot planeNormal)))) ∧
    (¬ (Epsilon ≤ |rayDirection.dot planeNormal| ∧
        0 ≤ (planeOrigin - rayStart).dot planeNormal / rayDirection.dot planeNormal) →
      rayPlaneIntersection sqrt Epsilon rayStart rayDirection planeOrigin planeNormal
        = .ok none) := by
  rw [rayPlaneIntersection_eq sqrt Epsilon hEps _ _ _ _ hd hn]
  refine ⟨⟨?_, ?_⟩, ?_, ?_⟩
  · rintro ⟨p, hp⟩
    by_contra hc
    rw [if_neg hc] at hp
    simp at hp
  · intro hc
    exact ⟨_, if_pos hc⟩
  · intro hc
    exact if_pos hc
  · intro hc
    exact if_neg hc

/-- Witness for C8: a ray from `(0, 0, 1)` pointing down hits the plane `z = 0` at `t = 1`,
in the point `(0, 0, 0)`. -/
theorem rayPlaneIntersection_iff_witness :
    rayPlaneIntersection Real.sqrt (1 / 1000000 : ℝ) ⟨0, 0, 1⟩ ⟨0, 0, -1⟩ ⟨0, 0, 0⟩
      ⟨0, 0, 1⟩ = .ok (some ⟨0, 0, 0⟩) :=
  ((rayPlaneIntersection_iff Real.sqrt (1 / 1000000 : ℝ) (by norm_num) ⟨0, 0, 1⟩ ⟨0, 0, -1⟩
    ⟨0, 0, 0⟩ ⟨0, 0, 1⟩
    (by simp [Double3.length, Double3.lengthSquared])
    (by simp [Double3.length, Double3.lengthSquared])).2.1
    ⟨by norm_num [Double3.dot], by
      show 0 ≤ Double3.dot (Double3.sub ⟨0, 0, 0⟩ ⟨0, 0, 1⟩) (⟨0, 0, 1⟩ : Double3 ℝ)
        / Double3.dot (⟨0, 0, -1⟩ : Double3 ℝ) ⟨0, 0, 1⟩
      norm_num [Double3.dot, Double3.sub]⟩).trans (by
    show Except.ok (some (Double3.add (⟨0, 0, 1⟩ : Double3 ℝ) (Double3.scale ⟨0, 0, -1⟩
      (Double3.dot (Double3.sub ⟨0, 0, 0⟩ ⟨0, 0, 1⟩) (⟨0, 0, 1⟩ : Double3 ℝ)
        / Double3.dot (⟨0, 0, -1⟩ : Double3 ℝ) ⟨0, 0, 1⟩))))
      = (Except.ok (some ⟨0, 0, 0⟩) : Except Fault (Option (Double3 ℝ)))
    norm_num [Double3.dot, Double3.sub, Double3.add, Double3.scale])

end RayPlane

section Angles

/-- Exact arithmetic: with `std::atan2 y x` read as the argument of the point `(x, y)` and `TwoPi = 2 * pi`,
`fullAtan2 y x` lies in `[0, 2 * pi)`; it is `atan2 y x` when that is non-negative and
`atan2 y x + 2 * pi` otherwise, hence congruent to `atan2 y x` modulo `2 * pi`; and
`fullAtan2 (-1) 0 = 3 * pi / 2`. -/
theorem fullAtan2_range (y x : ℝ) :
    0 ≤ fullAtan2 (fun b a => Complex.arg ⟨a, b⟩) (2 * Real.pi) y x ∧
    fullAtan2 (fun b a => Complex.arg ⟨a, b⟩) (2 * Real.pi) y x < 2 * Real.pi ∧
    fullAtan2 (fun b a => Complex.arg ⟨a, b⟩) (2 * Real.pi) y x =
      (if 0 ≤ Complex.arg ⟨x, y⟩ then Complex.arg ⟨x, y⟩
        else Complex.arg ⟨x, y⟩ + 2 * Real.pi) ∧
    (∃ k : ℤ, fullAtan2 (fun b a => Complex.arg ⟨a, b⟩) (2 * Real.pi) y x =
      Complex.arg ⟨x, y⟩ + k * (2 * Real.pi)) ∧
    fullAtan2 (fun b a => Complex.arg ⟨a, b⟩) (2 * Real.pi) (-1) 0 = 3 * Real.pi / 2 := by
  have hpi := Real.pi_pos
  have hlo := Complex.neg_pi_lt_arg ⟨x, y⟩
  have hhi := Complex.arg_le_pi ⟨x, y⟩
  have hI : Complex.arg ⟨0, -1⟩ = -(Real.pi / 2) := by
    have h : (⟨0, -1⟩ : ℂ) = -Complex.I := by
      apply Complex.ext <;> simp
    rw [h, Complex.arg_neg_I]
  unfold fullAtan2
  refine ⟨?_, ?_, ?_, ?_, ?_⟩
  · by_cases h : 0 ≤ Complex.arg ⟨x, y⟩
    · simp only [ge_iff_le, h, if_true]
    · simp only [ge_iff_le, h, if_false]
      linarith
  · by_cases h : 0 ≤ Complex.arg ⟨x, y⟩
    · simp only [ge_iff_le, h, if_true]
      linarith
    · simp only [ge_iff_le, h, if_false]
      linarith [not_le.mp h]
  · by_cases h : 0 ≤ Complex.arg ⟨x, y⟩
    · simp only [ge_iff_le, h, if_true]
    · simp only [ge_iff_le, h, if_false]
      ring
  · by_cases h : 0 ≤ Complex.arg ⟨x, y⟩
    · exact ⟨0, by simp only [ge_iff_le, h, if_true]; push_cast; ring⟩
    · exact ⟨1, by simp only [ge_iff_le, h, if_false]; push_cast; ring⟩
  · have hneg : ¬ (0 ≤ -(Real.pi / 2)) := by
      intro h
      linarith
    simp only [ge_iff_le, hI, hneg, if_false]
    ring

/-- C10: with `tan`, `atan` the real tangent and arctangent, `DegToRad = pi / 180` and
`RadToDeg = 180 / pi`, a square aspect ratio preserves the field of view:
`verticalFovToHorizontalFov fovY 1 = fovY` for `0 < fovY < 180`. -/
theorem verticalFovToHorizontalFov_square (fovY : ℝ) (h0 : 0 < fovY) (h1 : fovY < 180) :
    verticalFovToHorizontalFov Real.tan Real.arctan (Real.pi / 180) (180 / Real.pi) fovY 1
      = .ok fovY := by
  have hpi := Real.pi_pos
  have hne : Real.pi ≠ 0 := ne_of_gt hpi
  have hlo : -(Real.pi / 2) < fovY * (1 / 2) * (Real.pi / 180) := by
    have : 0 < fovY * (1 / 2) * (Real.pi / 180) := by positivity
    linarith
  have hhi : fovY * (1 / 2) * (Real.pi / 180) < Real.pi / 2 := by
    have : fovY * (1 / 2) * (Real.pi / 180) = fovY / 180 * (Real.pi / 2) := by ring
    rw [this]
    have h2 : fovY / 180 < 1 := by
      rw [div_lt_one (by norm_num)]
      exact h1
    nlinarith
  unfold verticalFovToHorizontalFov
  simp only [gt_iff_lt, h0, h1, not_true_eq_false, if_false, one_mul, zero_lt_one,
    Real.arctan_tan hlo hhi]
  congr 1
  field_simp
  ring

/-- Witness for C10: `verticalFovToHorizontalFov 90 1 = 90`. -/
theorem verticalFovToHorizontalFov_square_witness :
    verticalFovToHorizontalFov Real.tan Real.arctan (Real.pi / 180) (180 / Real.pi) 90 1
      = .ok 90 :=
  verticalFovToHorizontalFov_square 90 (by norm_num) (by norm_num)

end Angles

section RayQuad

variable {K : Type} [LinearOrderedField K]

theorem Double3.add_def (a b : Double3 K) :
    a + b = ⟨a.x + b.x, a.y + b.y, a.z + b.z⟩ := rfl

theorem Double3.sub_def (a b : Double3 K) :
    a - b = ⟨a.x - b.x, a.y - b.y, a.z - b.z⟩ := rfl

theorem Double3.mul_def (a : Double3 K) (m : K) :
    a * m = ⟨a.x * m, a.y * m, a.z * m⟩ := rfl

theorem IsSqrt.one {sqrt : K → K} (h : IsSqrt sqrt) : sqrt 1 = 1 := by
  obtain ⟨h0, h1⟩ := h 1 zero_le_one
  have hfac : (sqrt 1 - 1) * (sqrt 1 + 1) = 0 := by
    have : (sqrt 1 - 1) * (sqrt 1 + 1) = sqrt 1 * sqrt 1 - 1 := by ring
    rw [this, h1, sub_self]
  rcases mul_eq_zero.mp hfac with h2 | h2
  · exact sub_eq_zero.mp h2
  · exfalso
    have : (0 : K) < sqrt 1 + 1 := by linarith
    exact absurd h2 (ne_of_gt this)

theorem IsSqrt.pos {sqrt : K → K} (h : IsSqrt sqrt) {r : K} (hr : 0 < r) : 0 < sqrt r := by
  obtain ⟨h0, h1⟩ := h r (le_of_lt hr)
  rcases lt_or_eq_of_le h0 with h2 | h2
  · exact h2
  · exfalso
    rw [← h2, mul_zero] at h1
    exact absurd h1 (ne_of_lt hr)

theorem Double3.lengthSquared_nonneg (a : Double3 K) : 0 ≤ a.lengthSquared := by
  unfold Double3.lengthSquared
  have hx := mul_self_nonneg a.x
  have hy := mul_self_nonneg a.y
  have hz := mul_self_nonneg a.z
  linarith

theorem Double3.lengthSquared_pos {a : Double3 K} (ha : a ≠ ⟨0, 0, 0⟩) :
    0 < a.lengthSquared := by
  unfold Double3.lengthSquared
  have hx := mul_self_nonneg a.x
  have hy := mul_self_nonneg a.y
  have hz := mul_self_nonneg a.z
  by_contra hcon
  have hsum : a.x * a.x + a.y * a.y + a.z * a.z = 0 := by linarith [not_lt.mp hcon]
  have hx0 : a.x * a.x = 0 := by linarith
  have hy0 : a.y * a.y = 0 := by linarith
  have hz0 : a.z * a.z = 0 := by linarith
  apply ha
  ext
  · exact mul_self_eq_zero.mp hx0
  · exact mul_self_eq_zero.mp hy0
  · exact mul_self_eq_zero.mp hz0

/-- For non-collinear `v0`, `v1`, `v2` the normalization in `rayQuadIntersection` succeeds and
yields `quadNormal`, a unit vector. -/
theorem quadNormal_spec {sqrt : K → K} (h : IsSqrt sqrt) (v0 v1 v2 : Double3 K)
    (hquad : (v2 - v0).cross (v1 - v0) ≠ ⟨0, 0, 0⟩) :
    ((v2 - v0).cross (v1 - v0)).normalized sqrt = .ok (quadNormal sqrt v0 v1 v2) ∧
    (quadNormal sqrt v0 v1 v2).length sqrt = 1 := by
  have hpos := Double3.lengthSquared_pos hquad
  have hL := IsSqrt.pos h hpos
  obtain ⟨_, hsq⟩ := h _ (le_of_lt hpos)
  have hne : ((v2 - v0).cross (v1 - v0)).length sqrt ≠ 0 := ne_of_gt hL
  refine ⟨?_, ?_⟩
  · unfold Double3.normalized
    simp only [hne, if_false]
    rfl
  · have hone : (quadNormal sqrt v0 v1 v2).lengthSquared = 1 := by
      unfold quadNormal
      generalize (v2 - v0).cross (v1 - v0) = n at hsq hne hL
      unfold Double3.length at hne ⊢
      generalize sqrt n.lengthSquared = L at hsq hne hL
      simp only [Double3.mul_def, Double3.lengthSquared] at hsq ⊢
      field_simp
      linarith
    unfold Double3.length
    rw [hone]
    exact IsSqrt.one h

/-- For a non-degenerate quad, a unit ray direction and a positive `Epsilon`,
`rayQuadIntersection` is the plane test followed by the bounds check at the plane hit point. -/
theorem rayQuadIntersection_eq {sqrt : K → K} (h : IsSqrt sqrt) (Epsilon : K)
    (hEps : 0 < Epsilon) (rayStart rayDirection v0 v1 v2 : Double3 K)
    (hd : rayDirection.length sqrt = 1)
    (hquad : (v2 - v0).cross (v1 - v0) ≠ ⟨0, 0, 0⟩) :
    rayQuadIntersection sqrt Epsilon rayStart rayDirection v0 v1 v2 =
      if Epsilon ≤ |rayDirection.dot (quadNormal sqrt v0 v1 v2)| ∧
          0 ≤ (v0 - rayStart).dot (quadNormal sqrt v0 v1 v2)
            / rayDirection.dot (quadNormal sqrt v0 v1 v2) then
        (if quadBoundsCheck v0 v1 v2 (v0 + (v2 - v1))
            (rayStart + rayDirection * ((v0 - rayStart).dot (quadNormal sqrt v0 v1 v2)
              / rayDirection.dot (quadNormal sqrt v0 v1 v2))) = true then
          .ok (some (rayStart + rayDirection * ((v0 - rayStart).dot (quadNormal sqrt v0 v1 v2)
              / rayDirection.dot (quadNormal sqrt v0 v1 v2))))
        else .ok none)
      else .ok none := by
  obtain ⟨hnorm, hunit⟩ := quadNormal_spec h v0 v1 v2 hquad
  unfold rayQuadIntersection
  simp only [hnorm]
  rw [rayPlaneIntersection_eq sqrt Epsilon hEps _ _ _ _ hd hunit]
  by_cases hc : Epsilon ≤ |rayDirection.dot (quadNormal sqrt v0 v1 v2)| ∧
      0 ≤ (v0 - rayStart).dot (quadNormal sqrt v0 v1 v2)
        / rayDirection.dot (quadNormal sqrt v0 v1 v2)
  · rw [if_pos hc, if_pos hc]
  · rw [if_neg hc, if_neg hc]

/-- A point `P` of the plane through `v0` with normal `N` that the ray reaches at parameter
`t` is the point the plane test computes, provided the ray is not parallel to the plane. -/
theorem planeHit_of_through (rayStart rayDirection v0 N P : Double3 K) (t : K)
    (hplane : (P - v0).dot N = 0) (hne : rayDirection.dot N ≠ 0)
    (hthrough : rayStart + rayDirection * t = P) :
    (v0 - rayStart).dot N / rayDirection.dot N = t := by
  rw [div_eq_iff hne]
  subst hthrough
  simp only [Double3.add_def, Double3.sub_def, Double3.mul_def, Double3.dot] at hplane ⊢
  linarith

/-- The centroid of the quad lies in the plane of the quad. -/
theorem quadCentroid_on_plane (sqrt : K → K) (v0 v1 v2 : Double3 K) :
    (quadCentroid v0 v1 v2 - v0).dot (quadNormal sqrt v0 v1 v2) = 0 := by
  simp only [quadCentroid, quadNormal, Double3.add_def, Double3.sub_def, Double3.mul_def,
    Double3.dot, Double3.cross]
  ring

/-- The bounds check of `rayQuadIntersection` at the point
`v0 + (v1 - v0) * x + (v2 - v1) * y` of the quad's plane, in terms of `x` and `y`; `M` is the
squared length of `(v1 - v0) x (v2 - v1)`. -/
theorem quadBoundsCheck_param (v0 v1 v2 : Double3 K) (x y : K) :
    quadBoundsCheck v0 v1 v2 (v0 + (v2 - v1)) (v0 + (v1 - v0) * x + (v2 - v1) * y) =
      (decide (0 ≤ (y * (1 - x) * ((v1 - v0).cross (v2 - v1)).lengthSquared)
          * ((1 - x) * (1 - y) * ((v1 - v0).cross (v2 - v1)).lengthSquared)) &&
       decide (0 ≤ ((1 - x) * (1 - y) * ((v1 - v0).cross (v2 - v1)).lengthSquared)
          * ((1 - y) * x * ((v1 - v0).cross (v2 - v1)).lengthSquared))) := by
  unfold quadBoundsCheck
  have hab : ((v1 - v0).cross (v0 + (v1 - v0) * x + (v2 - v1) * y - v0)).dot
      ((v2 - v1).cross (v0 + (v1 - v0) * x + (v2 - v1) * y - v1))
      = y * (1 - x) * ((v1 - v0).cross (v2 - v1)).lengthSquared := by
    simp only [Double3.add_def, Double3.sub_def, Double3.mul_def, Double3.dot, Double3.cross,
      Double3.lengthSquared]
    ring
  have hbc : ((v2 - v1).cross (v0 + (v1 - v0) * x + (v2 - v1) * y - v1)).dot
      ((v0 + (v2 - v1) - v2).cross (v0 + (v1 - v0) * x + (v2 - v1) * y - v2))
      = (1 - x) * (1 - y) * ((v1 - v0).cross (v2 - v1)).lengthSquared := by
    simp only [Double3.add_def, Double3.sub_def, Double3.mul_def, Double3.dot, Double3.cross,
      Double3.lengthSquared]
    ring
  have hcd : ((v0 + (v2 - v1) - v2).cross (v0 + (v1 - v0) * x + (v2 - v1) * y - v2)).dot
      ((v0 - (v0 + (v2 - v1))).cross (v0 + (v1 - v0) * x + (v2 - v1) * y - (v0 + (v2 - v1))))
      = (1 - y) * x * ((v1 - v0).cross (v2 - v1)).lengthSquared := by
    simp only [Double3.add_def, Double3.sub_def, Double3.mul_def, Double3.dot, Double3.cross,
      Double3.lengthSquared]
    ring
  simp only [hab, hbc, hcd, ge_iff_le]

/-- The centroid is the point with parameters `x = y = 1 / 2`. -/
theorem quadCentroid_param (v0 v1 v2 : Double3 K) :
    quadCentroid v0 v1 v2 = v0 + (v1 - v0) * (1 / 2 : K) + (v2 - v1) * (1 / 2 : K) := by
  simp only [quadCentroid, Double3.add_def, Double3.sub_def, Double3.mul_def]
  ext <;> simp only <;> ring

/-- C5: for a non-degenerate quad `v0`, `v1`, `v2` (with `v3 = v0 + (v2 - v1)`), a positive
`Epsilon` and a ray with unit direction that is not near-parallel to the quad's plane and
passes through the centroid `(v0 + v1 + v2 + v3) / 4` at a parameter `t >= 0`,
`rayQuadIntersection` returns an intersection and the returned point is the centroid. -/
theorem rayQuadIntersection_centroid {sqrt : K → K} (h : IsSqrt sqrt) (Epsilon : K)
    (hEps : 0 < Epsilon) (rayStart rayDirection v0 v1 v2 : Double3 K)
    (hd : rayDirection.length sqrt = 1)
    (hquad : (v2 - v0).cross (v1 - v0) ≠ ⟨0, 0, 0⟩)
    (hpar : Epsilon ≤ |rayDirection.dot (quadNormal sqrt v0 v1 v2)|)
    (t : K) (ht : 0 ≤ t) (hthrough : rayStart + rayDirection * t = quadCentroid v0 v1 v2) :
    rayQuadIntersection sqrt Epsilon rayStart rayDirection v0 v1 v2
      = .ok (some (quadCentroid v0 v1 v2)) := by
  have hne : rayDirection.dot (quadNormal sqrt v0 v1 v2) ≠ 0 := by
    intro h0
    rw [h0, abs_zero] at hpar
    exact absurd hEps (not_lt.mpr hpar)
  have ht' := planeHit_of_through rayStart rayDirection v0 (quadNormal sqrt v0 v1 v2)
    (quadCentroid v0 v1 v2) t (quadCentroid_on_plane sqrt v0 v1 v2) hne hthrough
  have hcheck : quadBoundsCheck v0 v1 v2 (v0 + (v2 - v1)) (quadCentroid v0 v1 v2) = true := by
    rw [quadCentroid_param, quadBoundsCheck_param]
    have hM : 0 ≤ ((v1 - v0).cross (v2 - v1)).lengthSquared :=
      Double3.lengthSquared_nonneg _
    have h12 : (0 : K) ≤ 1 / 2 * (1 - 1 / 2) * ((v1 - v0).cross (v2 - v1)).lengthSquared := by
      have : (0 : K) ≤ 1 / 2 * (1 - 1 / 2) := by norm_num
      exact mul_nonneg this hM
    have h23 : (0 : K) ≤ (1 - 1 / 2) * (1 - 1 / 2) * ((v1 - v0).cross (v2 - v1)).lengthSquared := by
      have : (0 : K) ≤ (1 - 1 / 2) * (1 - 1 / 2) := by norm_num
      exact mul_nonneg this hM
    have h34 : (0 : K) ≤ (1 - 1 / 2) * (1 / 2) * ((v1 - v0).cross (v2 - v1)).lengthSquared := by
      have : (0 : K) ≤ (1 - 1 / 2) * (1 / 2) := by norm_num
      exact mul_nonneg this hM
    simp only [Bool.and_eq_true, decide_eq_true_eq]
    exact ⟨mul_nonneg h12 h23, mul_nonneg h23 h34⟩
  rw [rayQuadIntersection_eq h Epsilon hEps _ _ _ _ _ hd hquad, ht', hthrough]
  rw [if_pos ⟨hpar, ht⟩, if_pos hcheck]

end RayQuad

section Concrete

/-- The real square root meets the requirements on `std::sqrt`. -/
theorem isSqrt_real : IsSqrt Real.sqrt :=
  fun r hr => ⟨Real.sqrt_nonneg r, Real.mul_self_sqrt hr⟩

/-- The unit normal the code computes for the unit square in the plane `z = 0`. -/
theorem unitSquare_normal :
    quadNormal Real.sqrt (⟨0, 0, 0⟩ : Double3 ℝ) ⟨1, 0, 0⟩ ⟨1, 1, 0⟩ = ⟨0, 0, -1⟩ := by
  simp [quadNormal, Double3.sub_def, Double3.mul_def, Double3.cross, Double3.length,
    Double3.lengthSquared]

theorem unitSquare_nondegenerate :
    ((⟨1, 1, 0⟩ : Double3 ℝ) - ⟨0, 0, 0⟩).cross ((⟨1, 0, 0⟩ : Double3 ℝ) - ⟨0, 0, 0⟩)
      ≠ ⟨0, 0, 0⟩ := by
  intro h
  have hz := congrArg Double3.z h
  norm_num [Double3.sub_def, Double3.cross] at hz

theorem down_isUnit : Double3.length Real.sqrt (⟨0, 0, -1⟩ : Double3 ℝ) = 1 := by
  simp [Double3.length, Double3.lengthSquared]

/-- Witness for C5: the unit square in the plane `z = 0`, hit from above at its centre. -/
theorem rayQuadIntersection_centroid_witness :
    rayQuadIntersection Real.sqrt (1 / 1000000 : ℝ) ⟨1 / 2, 1 / 2, 1⟩ ⟨0, 0, -1⟩
      ⟨0, 0, 0⟩ ⟨1, 0, 0⟩ ⟨1, 1, 0⟩
      = .ok (some (quadCentroid ⟨0, 0, 0⟩ ⟨1, 0, 0⟩ ⟨1, 1, 0⟩)) :=
  rayQuadIntersection_centroid isSqrt_real (1 / 1000000 : ℝ) (by norm_num)
    ⟨1 / 2, 1 / 2, 1⟩ ⟨0, 0, -1⟩ ⟨0, 0, 0⟩ ⟨1, 0, 0⟩ ⟨1, 1, 0⟩ down_isUnit
    unitSquare_nondegenerate
    (by rw [unitSquare_normal]; norm_num [Double3.dot])
    1 (by norm_num)
    (by
      simp only [quadCentroid, Double3.add_def, Double3.sub_def, Double3.mul_def]
      ext <;> norm_num)

/-- C1 (the code at the failing input): for the unit square `v0 = (0,0,0)`, `v1 = (1,0,0)`,
`v2 = (1,1,0)` and the ray from `(1,5,1)` straight down, the plane hit point `(1,5,0)` lies on
the line through the edge `v1 v2` four units beyond `v2`, outside the quad, yet
`rayQuadIntersection` returns it as an intersection. -/
theorem rayQuadIntersection_hit_beyond_edge :
    rayQuadIntersection Real.sqrt (1 / 1000000 : ℝ) ⟨1, 5, 1⟩ ⟨0, 0, -1⟩
      ⟨0, 0, 0⟩ ⟨1, 0, 0⟩ ⟨1, 1, 0⟩ = .ok (some ⟨1, 5, 0⟩) ∧
    (⟨1, 5, 0⟩ : Double3 ℝ) =
      (⟨1, 0, 0⟩ : Double3 ℝ) + ((⟨1, 1, 0⟩ : Double3 ℝ) - ⟨1, 0, 0⟩) * (5 : ℝ) := by
  refine ⟨?_, ?_⟩
  · rw [rayQuadIntersection_eq isSqrt_real (1 / 1000000 : ℝ) (by norm_num) _ _ _ _ _
      down_isUnit unitSquare_nondegenerate, unitSquare_normal]
    have ht : ((⟨0, 0, 0⟩ : Double3 ℝ) - ⟨1, 5, 1⟩).dot ⟨0, 0, -1⟩
        / (⟨0, 0, -1⟩ : Double3 ℝ).dot ⟨0, 0, -1⟩ = 1 := by
      norm_num [Double3.sub_def, Double3.dot]
    have hhit : (⟨1, 5, 1⟩ : Double3 ℝ) + (⟨0, 0, -1⟩ : Double3 ℝ) * (1 : ℝ) = ⟨1, 5, 0⟩ := by
      simp only [Double3.add_def, Double3.mul_def]
      ext <;> norm_num
    have hcheck : quadBoundsCheck (⟨0, 0, 0⟩ : Double3 ℝ) ⟨1, 0, 0⟩ ⟨1, 1, 0⟩
        (⟨0, 0, 0⟩ + (⟨1, 1, 0⟩ - ⟨1, 0, 0⟩)) ⟨1, 5, 0⟩ = true := by
      norm_num [quadBoundsCheck, Double3.add_def, Double3.sub_def, Double3.dot, Double3.cross]
    rw [ht, hhit, if_pos ⟨by norm_num [Double3.dot], by norm_num⟩, if_pos hcheck]
  · simp only [Double3.add_def, Double3.sub_def, Double3.mul_def]
    ext <;> norm_num

/-- C2 (the code at the failing input): the segments from `(0,0,0)` to `(2,0,0)` and from
`(1,-1,0)` to `(1,1,0)` cross at `(1,0,0)`, but `distanceBetweenLineSegments` returns
`sqrt 2`, which is not zero. -/
theorem distanceBetweenLineSegments_crossing :
    distanceBetweenLineSegments Real.sqrt (⟨0, 0, 0⟩ : Double3 ℝ) ⟨2, 0, 0⟩ ⟨1, -1, 0⟩ ⟨1, 1, 0⟩
      = .ok ⟨Real.sqrt 2, 1 / 2, 1 / 2⟩ ∧
    Real.sqrt 2 ≠ 0 := by
  refine ⟨?_, ?_⟩
  · norm_num [distanceBetweenLineSegments, clamp, Double3.add_def, Double3.sub_def,
      Double3.mul_def, Double3.dot, Double3.length, Double3.lengthSquared]
  · exact ne_of_gt (Real.sqrt_pos.mpr (by norm_num))

/-- C3 (the code at the failing input): for the segments from `(1,0,0)` to `(2,0,0)` and from
`(0,1,0)` to `(0,2,0)` the code returns distance `0` with `s = t = 0`, while the points at
these parameters, `(1,0,0)` and `(0,1,0)`, are `sqrt 2` apart. -/
theorem distanceBetweenLineSegments_disjoint :
    distanceBetweenLineSegments Real.sqrt (⟨1, 0, 0⟩ : Double3 ℝ) ⟨2, 0, 0⟩ ⟨0, 1, 0⟩ ⟨0, 2, 0⟩
      = .ok ⟨0, 0, 0⟩ ∧
    Double3.length Real.sqrt
      (((⟨1, 0, 0⟩ : Double3 ℝ) + ((⟨2, 0, 0⟩ : Double3 ℝ) - ⟨1, 0, 0⟩) * (0 : ℝ))
        - ((⟨0, 1, 0⟩ : Double3 ℝ) + ((⟨0, 2, 0⟩ : Double3 ℝ) - ⟨0, 1, 0⟩) * (0 : ℝ)))
      = Real.sqrt 2 ∧
    Real.sqrt 2 ≠ 0 := by
  refine ⟨?_, ?_, ?_⟩
  · norm_num [distanceBetweenLineSegments, clamp, Double3.add_def, Double3.sub_def,
      Double3.mul_def, Double3.dot, Double3.length, Double3.lengthSquared]
  · norm_num [Double3.add_def, Double3.sub_def, Double3.mul_def, Double3.length,
      Double3.lengthSquared]
  · exact ne_of_gt (Real.sqrt_pos.mpr (by norm_num))

/-- The division in `distanceBetweenLineSegments` is reached with a zero divisor exactly when
`ac - bb = 0`. -/
theorem distanceBetweenLineSegments_fault_iff {K : Type} [LinearOrderedField K]
    (sqrt : K → K) (p0 p1 q0 q1 : Double3 K) :
    distanceBetweenLineSegments sqrt p0 p1 q0 q1 = .error .divisionByZero ↔
      segmentDivisor p0 p1 q0 q1 = 0 := by
  unfold distanceBetweenLineSegments segmentDivisor
  by_cases h : (p1 - p0).dot (p1 - p0) * (q1 - q0).dot (q1 - q0)
      - (p1 - p0).dot (q1 - q0) * (p1 - p0).dot (q1 - q0) = 0
  · simp [h]
  · simp [h]

/-- C4 (the code at the failing input): for the parallel segments from `(0,0,0)` to `(1,0,0)`
and from `(0,1,0)` to `(1,1,0)` the divisor `ac - bb` is zero and nothing guards the two
quotients, so the call has no value. -/
theorem distanceBetweenLineSegments_parallel :
    segmentDivisor (⟨0, 0, 0⟩ : Double3 ℝ) ⟨1, 0, 0⟩ ⟨0, 1, 0⟩ ⟨1, 1, 0⟩ = 0 ∧
    distanceBetweenLineSegments Real.sqrt (⟨0, 0, 0⟩ : Double3 ℝ) ⟨1, 0, 0⟩ ⟨0, 1, 0⟩ ⟨1, 1, 0⟩
      = .error .divisionByZero := by
  have h0 : segmentDivisor (⟨0, 0, 0⟩ : Double3 ℝ) ⟨1, 0, 0⟩ ⟨0, 1, 0⟩ ⟨1, 1, 0⟩ = 0 := by
    norm_num [segmentDivisor, Double3.sub_def, Double3.dot]
  exact ⟨h0, (distanceBetweenLineSegments_fault_iff _ _ _ _ _).mpr h0⟩

end Concrete

section FieldOfView

/-- Exact arithmetic: with the real `tan` and `atan`, `DegToRad = pi / 180` and `RadToDeg = 180 / pi`,
`verticalFovToHorizontalFov fovY aspectRatio` fails a precondition assertion exactly when
`fovY <= 0` or `fovY >= 180` or `aspectRatio <= 0`; for `0 < fovY < 180` and
`aspectRatio > 0` it returns `2 * atan (aspectRatio * tan (fovY / 2 in radians))` converted to
degrees, a value strictly between `0` and `180`. -/
theorem verticalFovToHorizontalFov_spec (fovY aspectRatio : ℝ) :
    (verticalFovToHorizontalFov Real.tan Real.arctan (Real.pi / 180) (180 / Real.pi)
        fovY aspectRatio = .error .assertion ↔
      (fovY ≤ 0 ∨ 180 ≤ fovY ∨ aspectRatio ≤ 0)) ∧
    (0 < fovY → fovY < 180 → 0 < aspectRatio →
      verticalFovToHorizontalFov Real.tan Real.arctan (Real.pi / 180) (180 / Real.pi)
          fovY aspectRatio
        = .ok (2 * Real.arctan (aspectRatio * Real.tan (fovY / 2 * (Real.pi / 180)))
            * (180 / Real.pi)) ∧
      0 < 2 * Real.arctan (aspectRatio * Real.tan (fovY / 2 * (Real.pi / 180)))
            * (180 / Real.pi) ∧
      2 * Real.arctan (aspectRatio * Real.tan (fovY / 2 * (Real.pi / 180)))
            * (180 / Real.pi) < 180) := by
  have hpi := Real.pi_pos
  refine ⟨?_, ?_⟩
  · unfold verticalFovToHorizontalFov
    by_cases h0 : 0 < fovY
    · by_cases h1 : fovY < 180
      · by_cases h2 : 0 < aspectRatio
        · simp [h0, h1, h2]
        · simp only [gt_iff_lt, h0, h1, h2, not_true_eq_false, not_false_eq_true, if_false,
            if_true, true_iff]
          exact Or.inr (Or.inr (not_lt.mp h2))
      · simp only [gt_iff_lt, h0, h1, not_true_eq_false, not_false_eq_true, if_false,
          if_true, true_iff]
        exact Or.inr (Or.inl (not_lt.mp h1))
    · simp only [gt_iff_lt, h0, not_false_eq_true, if_true, true_iff]
      exact Or.inl (not_lt.mp h0)
  · intro h0 h1 h2
    have harg : fovY * (1 / 2) * (Real.pi / 180) = fovY / 2 * (Real.pi / 180) := by ring
    have hlo : 0 < fovY / 2 * (Real.pi / 180) := by positivity
    have hhi : fovY / 2 * (Real.pi / 180) < Real.pi / 2 := by
      have h3 : fovY / 2 * (Real.pi / 180) = fovY / 180 * (Real.pi / 2) := by ring
      rw [h3]
      have h4 : fovY / 180 < 1 := by
        rw [div_lt_one (by norm_num)]
        exact h1
      nlinarith
    have htan : 0 < Real.tan (fovY / 2 * (Real.pi / 180)) :=
      Real.tan_pos_of_pos_of_lt_pi_div_two hlo hhi
    have hprod : 0 < aspectRatio * Real.tan (fovY / 2 * (Real.pi / 180)) :=
      mul_pos h2 htan
    have hatan0 : 0 < Real.arctan (aspectRatio * Real.tan (fovY / 2 * (Real.pi / 180))) := by
      have hmono := Real.arctan_strictMono hprod
      rwa [Real.arctan_zero] at hmono
    have hatan1 := Real.arctan_lt_pi_div_two
      (aspectRatio * Real.tan (fovY / 2 * (Real.pi / 180)))
    have hscale : 0 < 180 / Real.pi := by positivity
    refine ⟨?_, ?_, ?_⟩
    · unfold verticalFovToHorizontalFov
      simp only [gt_iff_lt, h0, h1, h2, not_true_eq_false, if_false, harg]
    · positivity
    · have h5 : 2 * Real.arctan (aspectRatio * Real.tan (fovY / 2 * (Real.pi / 180)))
          < Real.pi := by linarith
      have h6 : 2 * Real.arctan (aspectRatio * Real.tan (fovY / 2 * (Real.pi / 180)))
          * (180 / Real.pi) < Real.pi * (180 / Real.pi) :=
        mul_lt_mul_of_pos_right h5 hscale
      have h7 : Real.pi * (180 / Real.pi) = 180 := by
        field_simp
      linarith

end FieldOfView

section Segments

variable {K : Type} [LinearOrderedField K]

end Segments

section RayPlaneSound

variable {K : Type} [LinearOrderedField K]

/-- C14: whenever `rayPlaneIntersection` returns an intersection point `P`, the point lies on
the plane, `(P - planeOrigin) . planeNormal = 0`, and on the ray,
`P = rayStart + rayDirection * t` for some `t >= 0`. -/
theorem rayPlaneIntersection_sound (sqrt : K → K) (Epsilon : K)
    (rayStart rayDirection planeOrigin planeNormal P : Double3 K)
    (h : rayPlaneIntersection sqrt Epsilon rayStart rayDirection planeOrigin planeNormal
      = .ok (some P)) :
    (P - planeOrigin).dot planeNormal = 0 ∧
    ∃ t : K, 0 ≤ t ∧ P = rayStart + rayDirection * t := by
  unfold rayPlaneIntersection at h
  by_cases h1 : ¬ (Double3.isNormalized sqrt rayDirection = true)
  · rw [if_pos h1] at h
    exact absurd h (by simp)
  rw [if_neg h1] at h
  by_cases h2 : ¬ (Double3.isNormalized sqrt planeNormal = true)
  · rw [if_pos h2] at h
    exact absurd h (by simp)
  rw [if_neg h2] at h
  by_cases h3 : almostZero Epsilon (rayDirection.dot planeNormal) = 0
  swap
  · rw [if_neg h3] at h
    exact absurd h (by simp)
  rw [if_pos h3] at h
  by_cases h4 : rayDirection.dot planeNormal = 0
  · rw [if_pos h4] at h
    exact absurd h (by simp)
  rw [if_neg h4] at h
  by_cases h5 : (planeOrigin - rayStart).dot planeNormal / rayDirection.dot planeNormal ≥ 0
  swap
  · rw [if_neg h5] at h
    exact absurd h (by simp)
  rw [if_pos h5] at h
  simp only [Except.ok.injEq, Option.some.injEq] at h
  refine ⟨?_, ⟨_, h5, h.symm⟩⟩
  rw [← h]
  have hdiv : (planeOrigin - rayStart).dot planeNormal / rayDirection.dot planeNormal
      * rayDirection.dot planeNormal = (planeOrigin - rayStart).dot planeNormal :=
    div_mul_cancel₀ _ h4
  simp only [Double3.add_def, Double3.sub_def, Double3.mul_def, Double3.dot] at hdiv ⊢
  linarith

end RayPlaneSound

section QuadInside

variable {K : Type} [LinearOrderedField K]

/-- Every point `v0 + (v1 - v0) * x + (v2 - v1) * y` lies in the plane of the quad. -/
theorem quadPoint_on_plane (sqrt : K → K) (v0 v1 v2 : Double3 K) (x y : K) :
    (v0 + (v1 - v0) * x + (v2 - v1) * y - v0).dot (quadNormal sqrt v0 v1 v2) = 0 := by
  simp only [quadNormal, Double3.add_def, Double3.sub_def, Double3.mul_def, Double3.dot,
    Double3.cross]
  ring

/-- C15: for a non-degenerate quad `v0`, `v1`, `v2` (with `v3 = v0 + (v2 - v1)`), a positive
`Epsilon` and a ray with unit direction that is not near-parallel to the quad's plane and
meets that plane at a parameter `t >= 0` in a point `v0 + (v1 - v0) * x + (v2 - v1) * y` with
`0 <= x <= 1` and `0 <= y <= 1` (inside or on the boundary of the parallelogram),
`rayQuadIntersection` returns an intersection and the returned point is that point. -/
theorem rayQuadIntersection_inside {sqrt : K → K} (h : IsSqrt sqrt) (Epsilon : K)
    (hEps : 0 < Epsilon) (rayStart rayDirection v0 v1 v2 : Double3 K)
    (hd : rayDirection.length sqrt = 1)
    (hquad : (v2 - v0).cross (v1 - v0) ≠ ⟨0, 0, 0⟩)
    (hpar : Epsilon ≤ |rayDirection.dot (quadNormal sqrt v0 v1 v2)|)
    (x y : K) (hx0 : 0 ≤ x) (hx1 : x ≤ 1) (hy0 : 0 ≤ y) (hy1 : y ≤ 1)
    (t : K) (ht : 0 ≤ t)
    (hthrough : rayStart + rayDirection * t = v0 + (v1 - v0) * x + (v2 - v1) * y) :
    rayQuadIntersection sqrt Epsilon rayStart rayDirection v0 v1 v2
      = .ok (some (v0 + (v1 - v0) * x + (v2 - v1) * y)) := by
  have hne : rayDirection.dot (quadNormal sqrt v0 v1 v2) ≠ 0 := by
    intro h0
    rw [h0, abs_zero] at hpar
    exact absurd hEps (not_lt.mpr hpar)
  have hparam := planeHit_of_through rayStart rayDirection v0 (quadNormal sqrt v0 v1 v2)
    (v0 + (v1 - v0) * x + (v2 - v1) * y) t (quadPoint_on_plane sqrt v0 v1 v2 x y) hne hthrough
  have hM : 0 ≤ ((v1 - v0).cross (v2 - v1)).lengthSquared :=
    Double3.lengthSquared_nonneg _
  have hx' : 0 ≤ 1 - x := sub_nonneg.mpr hx1
  have hy' : 0 ≤ 1 - y := sub_nonneg.mpr hy1
  have hcheck : quadBoundsCheck v0 v1 v2 (v0 + (v2 - v1))
      (v0 + (v1 - v0) * x + (v2 - v1) * y) = true := by
    rw [quadBoundsCheck_param]
    simp only [Bool.and_eq_true, decide_eq_true_eq]
    exact ⟨mul_nonneg (mul_nonneg (mul_nonneg hy0 hx') hM)
        (mul_nonneg (mul_nonneg hx' hy') hM),
      mul_nonneg (mul_nonneg (mul_nonneg hx' hy') hM)
        (mul_nonneg (mul_nonneg hy' hx0) hM)⟩
  rw [rayQuadIntersection_eq h Epsilon hEps _ _ _ _ _ hd hquad, hparam, hthrough]
  rw [if_pos ⟨hpar, ht⟩, if_pos hcheck]

end QuadInside

section ConcreteMore

/-- A ray from `(0, 0, 2)` straight down meets the plane `z = 0` in the origin. -/
theorem rayPlaneIntersection_from_two :
    rayPlaneIntersection Real.sqrt (1 / 1000000 : ℝ) ⟨0, 0, 2⟩ ⟨0, 0, -1⟩ ⟨0, 0, 0⟩
      ⟨0, 0, 1⟩ = .ok (some ⟨0, 0, 0⟩) := by
  rw [rayPlaneIntersection_eq Real.sqrt (1 / 1000000 : ℝ) (by norm_num) _ _ _ _ down_isUnit
    (by simp [Double3.length, Double3.lengthSquared])]
  have ht : ((⟨0, 0, 0⟩ : Double3 ℝ) - ⟨0, 0, 2⟩).dot ⟨0, 0, 1⟩
      / (⟨0, 0, -1⟩ : Double3 ℝ).dot ⟨0, 0, 1⟩ = 2 := by
    norm_num [Double3.sub_def, Double3.dot]
  have hhit : (⟨0, 0, 2⟩ : Double3 ℝ) + (⟨0, 0, -1⟩ : Double3 ℝ) * (2 : ℝ) = ⟨0, 0, 0⟩ := by
    simp only [Double3.add_def, Double3.mul_def]
    ext <;> norm_num
  rw [ht, hhit, if_pos ⟨by norm_num [Double3.dot], by norm_num⟩]

/-- Witness for C14: the hit point of the ray from `(0, 0, 2)` straight down lies on the plane
`z = 0`. -/
theorem rayPlaneIntersection_sound_witness :
    ((⟨0, 0, 0⟩ : Double3 ℝ) - ⟨0, 0, 0⟩).dot ⟨0, 0, 1⟩ = 0 ∧
    ∃ t : ℝ, 0 ≤ t ∧ (⟨0, 0, 0⟩ : Double3 ℝ) = ⟨0, 0, 2⟩ + (⟨0, 0, -1⟩ : Double3 ℝ) * t :=
  rayPlaneIntersection_sound Real.sqrt (1 / 1000000 : ℝ) ⟨0, 0, 2⟩ ⟨0, 0, -1⟩ ⟨0, 0, 0⟩
    ⟨0, 0, 1⟩ ⟨0, 0, 0⟩ rayPlaneIntersection_from_two

/-- Witness for C15: the unit square in the plane `z = 0`, hit from above at
`(1/4, 3/4, 0)`. -/
theorem rayQuadIntersection_inside_witness :
    rayQuadIntersection Real.sqrt (1 / 1000000 : ℝ) ⟨1 / 4, 3 / 4, 1⟩ ⟨0, 0, -1⟩
      ⟨0, 0, 0⟩ ⟨1, 0, 0⟩ ⟨1, 1, 0⟩
      = .ok (some ((⟨0, 0, 0⟩ : Double3 ℝ) + ((⟨1, 0, 0⟩ : Double3 ℝ) - ⟨0, 0, 0⟩) * (1 / 4 : ℝ)
          + ((⟨1, 1, 0⟩ : Double3 ℝ) - ⟨1, 0, 0⟩) * (3 / 4 : ℝ))) :=
  rayQuadIntersection_inside isSqrt_real (1 / 1000000 : ℝ) (by norm_num)
    ⟨1 / 4, 3 / 4, 1⟩ ⟨0, 0, -1⟩ ⟨0, 0, 0⟩ ⟨1, 0, 0⟩ ⟨1, 1, 0⟩ down_isUnit
    unitSquare_nondegenerate
    (by rw [unitSquare_normal]; norm_num [Double3.dot])
    (1 / 4) (3 / 4) (by norm_num) (by norm_num) (by norm_num) (by norm_num)
    1 (by norm_num)
    (by
      simp only [Double3.add_def, Double3.sub_def, Double3.mul_def]
      ext <;> norm_num)

end ConcreteMore

section CityIDs

theorem wrapInt_of_inInt {x : Int} (h : InInt x) : wrapInt x = x := by
  unfold InInt at h
  unfold wrapInt
  omega

theorem land_mask_of_nonneg {g : Int} (h : 0 ≤ g) : Int.land g 0x1F = g % 32 := by
  obtain ⟨n, rfl⟩ := Int.eq_ofNat_of_zero_le h
  have hnat : n &&& 31 = n % 32 := Nat.and_pow_two_sub_one_eq_mod n 5
  show ((n &&& 31 : Nat) : Int) = (n : Int) % 32
  rw [hnat]
  norm_cast

theorem shiftRight_five (g : Int) : g >>> (5 : Nat) = g / 32 := by
  rw [Int.shiftRight_eq_div_pow]
  norm_num

theorem shiftLeft_five (p : Int) : p <<< (5 : Int) = p * 32 := by
  have h := Int.shiftLeft_eq_mul_pow p 5
  norm_num at h
  exact h

/-- C16: global city IDs round-trip. For `0 <= localCityID < 32` and `provinceID >= 0` without
`int` overflow (`provinceID * 32 + localCityID` representable),
`getLocalCityAndProvinceID (getGlobalCityID localCityID provinceID)` is
`(localCityID, provinceID)`; for `localCityID = 32`, `provinceID = 0` the round trip yields
`(0, 1)` instead. -/
theorem getGlobalCityID_roundTrip :
    (∀ localCityID provinceID : Int, 0 ≤ localCityID → localCityID < 32 → 0 ≤ provinceID →
      provinceID * 32 + localCityID ≤ 2147483647 →
      getLocalCityAndProvinceID (getGlobalCityID localCityID provinceID)
        = (localCityID, provinceID)) ∧
    getLocalCityAndProvinceID (getGlobalCityID 32 0) = (0, 1) ∧
    getLocalCityAndProvinceID (getGlobalCityID 32 0) ≠ (32, 0) := by
  refine ⟨?_, ?_, ?_⟩
  · intro localCityID provinceID hl0 hl1 hp0 hov
    have h1 : wrapInt (provinceID * 32) = provinceID * 32 :=
      wrapInt_of_inInt ⟨by omega, by omega⟩
    have h2 : wrapInt (provinceID * 32 + localCityID) = provinceID * 32 + localCityID :=
      wrapInt_of_inInt ⟨by omega, by omega⟩
    unfold getLocalCityAndProvinceID getGlobalCityID
    rw [shiftLeft_five, h1, h2, land_mask_of_nonneg (by omega), shiftRight_five]
    refine Prod.ext ?_ ?_
    · show (provinceID * 32 + localCityID) % 32 = localCityID
      omega
    · show (provinceID * 32 + localCityID) / 32 = provinceID
      omega
  · decide
  · decide

/-- Witness for C16: city `5` of province `3`. -/
theorem getGlobalCityID_roundTrip_witness :
    getLocalCityAndProvinceID (getGlobalCityID 5 3) = (5, 3) :=
  getGlobalCityID_roundTrip.1 5 3 (by norm_num) (by norm_num) (by norm_num) (by norm_num)

end CityIDs

section Distance

/-- Without `int` overflow, `getDistance` is the larger coordinate difference plus a quarter
of the smaller one. -/
theorem getDistance_eq (p1 p2 : Int2)
    (hdx : |p1.x - p2.x| ≤ 2147483647) (hdy : |p1.y - p2.y| ≤ 2147483647)
    (hsum : max |p1.x - p2.x| |p1.y - p2.y| + min |p1.x - p2.x| |p1.y - p2.y| / 4
      ≤ 2147483647) :
    getDistance p1 p2
      = max |p1.x - p2.x| |p1.y - p2.y| + min |p1.x - p2.x| |p1.y - p2.y| / 4 := by
  have hax := abs_nonneg (p1.x - p2.x)
  have hay := abs_nonneg (p1.y - p2.y)
  have hx1 := le_abs_self (p1.x - p2.x)
  have hx2 := neg_abs_le (p1.x - p2.x)
  have hy1 := le_abs_self (p1.y - p2.y)
  have hy2 := neg_abs_le (p1.y - p2.y)
  have h1 : wrapInt (p1.x - p2.x) = p1.x - p2.x := wrapInt_of_inInt ⟨by omega, by omega⟩
  have h2 : wrapInt (p1.y - p2.y) = p1.y - p2.y := wrapInt_of_inInt ⟨by omega, by omega⟩
  have h3 : wrapInt |p1.x - p2.x| = |p1.x - p2.x| := wrapInt_of_inInt ⟨by omega, by omega⟩
  have h4 : wrapInt |p1.y - p2.y| = |p1.y - p2.y| := wrapInt_of_inInt ⟨by omega, by omega⟩
  have hmin : 0 ≤ min |p1.x - p2.x| |p1.y - p2.y| := le_min hax hay
  have h5 : (min |p1.x - p2.x| |p1.y - p2.y|).tdiv 4 = min |p1.x - p2.x| |p1.y - p2.y| / 4 :=
    Int.tdiv_eq_ediv hmin (by norm_num)
  unfold getDistance
  simp only [h1, h2, h3, h4, h5]
  exact wrapInt_of_inInt ⟨by omega, hsum⟩

/-- C19: without `int` overflow, with `m = max (|p1.x - p2.x|, |p1.y - p2.y|)`:
`m <= getDistance p1 p2 <= m + m / 4`, `getDistance` is symmetric, and
`getDistance p1 p2 = 0` exactly when `p1 = p2`. -/
theorem getDistance_bounds (p1 p2 : Int2)
    (hdx : |p1.x - p2.x| ≤ 2147483647) (hdy : |p1.y - p2.y| ≤ 2147483647)
    (hsum : max |p1.x - p2.x| |p1.y - p2.y| + min |p1.x - p2.x| |p1.y - p2.y| / 4
      ≤ 2147483647) :
    max |p1.x - p2.x| |p1.y - p2.y| ≤ getDistance p1 p2 ∧
    getDistance p1 p2
      ≤ max |p1.x - p2.x| |p1.y - p2.y| + max |p1.x - p2.x| |p1.y - p2.y| / 4 ∧
    getDistance p1 p2 = getDistance p2 p1 ∧
    (getDistance p1 p2 = 0 ↔ p1 = p2) := by
  have hax := abs_nonneg (p1.x - p2.x)
  have hay := abs_nonneg (p1.y - p2.y)
  have hsx : |p2.x - p1.x| = |p1.x - p2.x| := abs_sub_comm _ _
  have hsy : |p2.y - p1.y| = |p1.y - p2.y| := abs_sub_comm _ _
  have hsym : getDistance p2 p1
      = max |p1.x - p2.x| |p1.y - p2.y| + min |p1.x - p2.x| |p1.y - p2.y| / 4 := by
    rw [getDistance_eq p2 p1 (by rw [hsx]; exact hdx) (by rw [hsy]; exact hdy)
      (by rw [hsx, hsy]; exact hsum), hsx, hsy]
  rw [hsym, getDistance_eq p1 p2 hdx hdy hsum]
  refine ⟨by omega, by omega, rfl, ?_⟩
  constructor
  · intro h0
    have hx0 : |p1.x - p2.x| = 0 := by omega
    have hy0 : |p1.y - p2.y| = 0 := by omega
    have hx := sub_eq_zero.mp (abs_eq_zero.mp hx0)
    have hy := sub_eq_zero.mp (abs_eq_zero.mp hy0)
    exact Int2.ext hx hy
  · intro heq
    subst heq
    simp

/-- Witness for C19: the points `(0, 0)` and `(10, 7)`, at distance `10 + 7 / 4 = 11`. -/
theorem getDistance_bounds_witness :
    max |(0 : Int) - 10| |(0 : Int) - 7| ≤ getDistance ⟨0, 0⟩ ⟨10, 7⟩ ∧
    getDistance ⟨0, 0⟩ ⟨10, 7⟩
      ≤ max |(0 : Int) - 10| |(0 : Int) - 7| + max |(0 : Int) - 10| |(0 : Int) - 7| / 4 ∧
    getDistance ⟨0, 0⟩ ⟨10, 7⟩ = getDistance ⟨10, 7⟩ ⟨0, 0⟩ ∧
    (getDistance ⟨0, 0⟩ ⟨10, 7⟩ = 0 ↔ (⟨0, 0⟩ : Int2) = ⟨10, 7⟩) :=
  getDistance_bounds ⟨0, 0⟩ ⟨10, 7⟩ (by decide) (by decide) (by decide)

end Distance

section PointConversion

/-- One axis of the local to global to local round trip, for a scale divisor `k >= 1`, a
non-negative local coordinate `c` and a rectangle offset `off`, without `int` overflow. -/
theorem axis_roundTrip (c off k : Int) (hk : 1 ≤ k) (hc : 0 ≤ c)
    (hck : c * k ≤ 2147483647) (hg : InInt (c * k / 100 + off)) :
    wrapInt ((wrapInt (wrapInt (wrapInt ((wrapInt (c * k)).tdiv 100 + off) - off) * 100)).tdiv k)
      ≤ c ∧
    (k = 100 →
      wrapInt ((wrapInt (wrapInt (wrapInt ((wrapInt (c * k)).tdiv 100 + off) - off)
        * 100)).tdiv k) = c) := by
  have hm0 : 0 ≤ c * k := mul_nonneg hc (by omega)
  have hcle : c ≤ c * k := le_mul_of_one_le_right hc hk
  have w1 : wrapInt (c * k) = c * k := wrapInt_of_inInt ⟨by omega, hck⟩
  have t1 : (c * k).tdiv 100 = c * k / 100 := Int.tdiv_eq_ediv hm0 (by norm_num)
  have hg0 : 0 ≤ c * k / 100 := Int.ediv_nonneg hm0 (by norm_num)
  have hg1 : c * k / 100 * 100 ≤ c * k := Int.ediv_mul_le _ (by norm_num)
  have w2 : wrapInt (c * k / 100 + off) = c * k / 100 + off := wrapInt_of_inInt hg
  have hsub : c * k / 100 + off - off = c * k / 100 := by omega
  have w3 : wrapInt (c * k / 100) = c * k / 100 := wrapInt_of_inInt ⟨by omega, by omega⟩
  have w4 : wrapInt (c * k / 100 * 100) = c * k / 100 * 100 :=
    wrapInt_of_inInt ⟨by omega, by omega⟩
  have t2 : (c * k / 100 * 100).tdiv k = c * k / 100 * 100 / k :=
    Int.tdiv_eq_ediv (by omega) (by omega)
  have hq0 : 0 ≤ c * k / 100 * 100 / k := Int.ediv_nonneg (by omega) (by omega)
  have hq1 : c * k / 100 * 100 / k ≤ c := Int.ediv_le_of_le_mul (by omega) hg1
  have w5 : wrapInt (c * k / 100 * 100 / k) = c * k / 100 * 100 / k :=
    wrapInt_of_inInt ⟨by omega, by omega⟩
  rw [w1, t1, w2, hsub, w3, w4, t2, w5]
  refine ⟨hq1, ?_⟩
  intro h100
  subst h100
  omega

/-- C17: for a rect with `width >= 4` and `height >= 2`, a local point `p` with non-negative
coordinates and no `int` overflow in `localPointToGlobal p rect`,
`globalPointToLocal (localPointToGlobal p rect) rect` returns a point that is component-wise
at most `p`, and equal to `p` when the rect is `320` by `200`. -/
theorem localGlobal_roundTrip (p : Int2) (rect : Rect)
    (hw : 4 ≤ rect.getWidth) (hh : 2 ≤ rect.getHeight) (hx : 0 ≤ p.x) (hy : 0 ≤ p.y)
    (hrange : LocalToGlobalInRange p rect) :
    ∃ q : Int2, globalPointToLocal (localPointToGlobal p rect) rect = .ok q ∧
      q.x ≤ p.x ∧ q.y ≤ p.y ∧
      (rect.getWidth = 320 → rect.getHeight = 200 → q = p) := by
  obtain ⟨hw100, hh100, hpx, hpy, hgx, hgy⟩ := hrange
  have hkx : (wrapInt (rect.getWidth * 100)).tdiv 320 = rect.getWidth * 100 / 320 := by
    rw [wrapInt_of_inInt hw100]
    exact Int.tdiv_eq_ediv (by omega) (by norm_num)
  have hky : (wrapInt (rect.getHeight * 100)).tdiv 200 = rect.getHeight * 100 / 200 := by
    rw [wrapInt_of_inInt hh100]
    exact Int.tdiv_eq_ediv (by omega) (by norm_num)
  have hkx1 : 1 ≤ rect.getWidth * 100 / 320 := by omega
  have hky1 : 1 ≤ rect.getHeight * 100 / 200 := by omega
  obtain ⟨hqx, hqx'⟩ := axis_roundTrip p.x rect.getLeft (rect.getWidth * 100 / 320) hkx1 hx
    hpx.2 hgx
  obtain ⟨hqy, hqy'⟩ := axis_roundTrip p.y rect.getTop (rect.getHeight * 100 / 200) hky1 hy
    hpy.2 hgy
  refine ⟨⟨_, _⟩, ?_, hqx, hqy, ?_⟩
  · unfold globalPointToLocal localPointToGlobal
    simp only [hkx, hky]
    rw [if_neg (by omega), if_neg (by omega)]
    rfl
  · intro hw320 hh200
    exact Int2.ext (hqx' (by rw [hw320]; norm_num)) (hqy' (by rw [hh200]; norm_num))

/-- Witness for C17: the local point `(100, 50)` in the rect at `(10, 20)` of size
`64` by `40`. -/
theorem localGlobal_roundTrip_witness :
    ∃ q : Int2, globalPointToLocal (localPointToGlobal ⟨100, 50⟩ ⟨10, 20, 64, 40⟩)
        ⟨10, 20, 64, 40⟩ = .ok q ∧
      q.x ≤ (⟨100, 50⟩ : Int2).x ∧ q.y ≤ (⟨100, 50⟩ : Int2).y ∧
      (Rect.getWidth ⟨10, 20, 64, 40⟩ = 320 → Rect.getHeight ⟨10, 20, 64, 40⟩ = 200 →
        q = ⟨100, 50⟩) :=
  localGlobal_roundTrip ⟨100, 50⟩ ⟨10, 20, 64, 40⟩ (by decide) (by decide) (by decide)
    (by decide) (by unfold LocalToGlobalInRange InInt; decide)

end PointConversion

section GlobalQuarter

/-- The `std::find_if` of `getGlobalQuarter` stops at the first province whose rectangle
contains the point. -/
theorem findProvince_first (contains : Rect → Int2 → Bool) (globalPoint : Int2) :
    ∀ (provinces : List ProvinceData) (k : Nat) (province : ProvinceData),
      provinces[k]? = some province →
      contains (provinceRectOf province) globalPoint = true →
      (∀ (j : Nat) (other : ProvinceData), j < k → provinces[j]? = some other →
        contains (provinceRectOf other) globalPoint = false) →
      findProvince contains globalPoint provinces = some (k, provinceRectOf province) := by
  intro provinces
  induction provinces with
  | nil =>
    intro k province hk
    simp at hk
  | cons head rest ih =>
    intro k province hk hin hfirst
    cases k with
    | zero =>
      simp only [List.getElem?_cons_zero, Option.some.injEq] at hk
      subst hk
      simp [findProvince, hin]
    | succ n =>
      have hhead : contains (provinceRectOf head) globalPoint = false :=
        hfirst 0 head (Nat.succ_pos n) (by simp)
      have hrest := ih n province (by simpa using hk) hin
        (fun j other hj hjo => hfirst (j + 1) other (Nat.succ_lt_succ hj) (by simpa using hjo))
      simp [findProvince, hhead, hrest]

/-- A point contained in some province rectangle has a first province containing it. -/
theorem exists_first_province (contains : Rect → Int2 → Bool) (globalPoint : Int2)
    (provinces : List ProvinceData)
    (hex : ∃ (j : Nat) (province : ProvinceData), provinces[j]? = some province ∧
      contains (provinceRectOf province) globalPoint = true) :
    ∃ (k : Nat) (province : ProvinceData), provinces[k]? = some province ∧
      contains (provinceRectOf province) globalPoint = true ∧
      (∀ (j : Nat) (other : ProvinceData), j < k → provinces[j]? = some other →
        contains (provinceRectOf other) globalPoint = false) := by
  classical
  have hex' : ∃ j : Nat, ∃ province : ProvinceData, provinces[j]? = some province ∧
      contains (provinceRectOf province) globalPoint = true := hex
  obtain ⟨province, hk, hin⟩ := Nat.find_spec hex'
  refine ⟨Nat.find hex', province, hk, hin, ?_⟩
  intro j other hj hjo
  have hmin := Nat.find_min hex' hj
  by_contra hcon
  exact hmin ⟨other, hjo, by simpa using hcon⟩

theorem quarterOf_bounds (localPoint : Int2) :
    0 ≤ quarterOf localPoint ∧ quarterOf localPoint ≤ 3 := by
  unfold quarterOf
  split_ifs <;> omega

/-- The result of `getGlobalQuarter` once the first containing province and the local point
are known, without `int` overflow in the index. -/
theorem getGlobalQuarter_of_first (contains : Rect → Int2 → Bool)
    (provinces : List ProvinceData) (globalPoint : Int2) (k : Nat) (province : ProvinceData)
    (hlen : 4 * (provinces.length : Int) ≤ 2147483647)
    (hk : provinces[k]? = some province)
    (hin : contains (provinceRectOf province) globalPoint = true)
    (hfirst : ∀ (j : Nat) (other : ProvinceData), j < k → provinces[j]? = some other →
      contains (provinceRectOf other) globalPoint = false)
    (localPoint : Int2)
    (hlocal : globalPointToLocal globalPoint (provinceRectOf province) = .ok localPoint) :
    getGlobalQuarter contains provinces globalPoint
      = .ok (4 * (k : Int) + quarterOf localPoint) := by
  have hklt : k < provinces.length := by
    rcases Nat.lt_or_ge k provinces.length with h | h
    · exact h
    · rw [List.getElem?_eq_none h] at hk
      exact absurd hk (by simp)
  have hkInt : (k : Int) < provinces.length := by exact_mod_cast hklt
  have hk0 : (0 : Int) ≤ k := Int.ofNat_nonneg k
  have w1 : wrapInt (k : Int) = k := wrapInt_of_inInt ⟨by omega, by omega⟩
  have w2 : wrapInt ((k : Int) * 4) = k * 4 := wrapInt_of_inInt ⟨by omega, by omega⟩
  have w3 : wrapInt ((k : Int) * 4 + 1) = k * 4 + 1 := wrapInt_of_inInt ⟨by omega, by omega⟩
  have w4 : wrapInt ((k : Int) * 4 + 2) = k * 4 + 2 := wrapInt_of_inInt ⟨by omega, by omega⟩
  have w5 : wrapInt ((k : Int) * 4 + 1 + 2) = k * 4 + 1 + 2 :=
    wrapInt_of_inInt ⟨by omega, by omega⟩
  unfold getGlobalQuarter
  rw [findProvince_first contains globalPoint provinces k province hk hin hfirst]
  simp only [hlocal, w1, w2]
  unfold quarterOf
  by_cases hx : localPoint.x ≥ 160
  · by_cases hy : localPoint.y ≥ 100
    · simp only [hx, hy, decide_True, if_true, w3, w5, Except.ok.injEq]
      omega
    · simp only [hx, hy, decide_True, decide_False, if_true, if_false, w3, Except.ok.injEq,
        Bool.false_eq_true]
      omega
  · by_cases hy : localPoint.y ≥ 100
    · simp only [hx, hy, decide_True, decide_False, if_true, if_false, w4, Except.ok.injEq,
        Bool.false_eq_true]
      omega
    · simp only [hx, hy, decide_False, if_false, Except.ok.injEq, Bool.false_eq_true]
      omega

end GlobalQuarter

section GlobalQuarterClaim

/-- C18 (counterexample): the point `(1, 1)` is contained in the rectangle of the only
province, at `(0, 0)` with size `3` by `3`, but the scale divisor `(3 * 100) / 320` is zero
and `getGlobalQuarter` has no value. -/
theorem getGlobalQuarter_narrow_province :
    Rect.contains (provinceRectOf ⟨0, 0, 3, 3⟩) ⟨1, 1⟩ = true ∧
    getGlobalQuarter Rect.contains [⟨0, 0, 3, 3⟩] ⟨1, 1⟩ = .error .divisionByZero :=
  ⟨by decide, by rfl⟩

/-- C18 (amended): let `k` be the index of the first province whose rectangle contains the
global point, and let both scale divisors `(w * 100) / 320` and `(h * 100) / 200` of that
rectangle be non-zero. Then, without `int` overflow in the index, `getGlobalQuarter` returns
`4 * k + q` with `q = (localX >= 160 ? 1 : 0) + (localY >= 100 ? 2 : 0)` and
`(localX, localY) = globalPointToLocal (point, rectangle of province k)`; the result lies in
`[4 * k, 4 * k + 3]` and in `[0, 4 * number of provinces)`. -/
theorem getGlobalQuarter_spec (contains : Rect → Int2 → Bool)
    (provinces : List ProvinceData) (globalPoint : Int2) (k : Nat) (province : ProvinceData)
    (hlen : 4 * (provinces.length : Int) ≤ 2147483647)
    (hk : provinces[k]? = some province)
    (hin : contains (provinceRectOf province) globalPoint = true)
    (hfirst : ∀ (j : Nat) (other : ProvinceData), j < k → provinces[j]? = some other →
      contains (provinceRectOf other) globalPoint = false)
    (hdivX : (wrapInt ((provinceRectOf province).getWidth * 100)).tdiv 320 ≠ 0)
    (hdivY : (wrapInt ((provinceRectOf province).getHeight * 100)).tdiv 200 ≠ 0) :
    ∃ localPoint : Int2,
      globalPointToLocal globalPoint (provinceRectOf province) = .ok localPoint ∧
      getGlobalQuarter contains provinces globalPoint
        = .ok (4 * (k : Int) + quarterOf localPoint) ∧
      4 * (k : Int) ≤ 4 * (k : Int) + quarterOf localPoint ∧
      4 * (k : Int) + quarterOf localPoint ≤ 4 * (k : Int) + 3 ∧
      0 ≤ 4 * (k : Int) + quarterOf localPoint ∧
      4 * (k : Int) + quarterOf localPoint < 4 * (provinces.length : Int) := by
  have hklt : k < provinces.length := by
    rcases Nat.lt_or_ge k provinces.length with h | h
    · exact h
    · rw [List.getElem?_eq_none h] at hk
      exact absurd hk (by simp)
  have hkInt : (k : Int) < provinces.length := by exact_mod_cast hklt
  have hk0 : (0 : Int) ≤ k := Int.ofNat_nonneg k
  have hlocal : ∃ localPoint : Int2,
      globalPointToLocal globalPoint (provinceRectOf province) = .ok localPoint := by
    unfold globalPointToLocal
    simp only [hdivX, hdivY, if_false]
    exact ⟨_, rfl⟩
  obtain ⟨localPoint, hlocal⟩ := hlocal
  obtain ⟨hq0, hq3⟩ := quarterOf_bounds localPoint
  exact ⟨localPoint, hlocal,
    getGlobalQuarter_of_first contains provinces globalPoint k province hlen hk hin hfirst
      localPoint hlocal,
    by omega, by omega, by omega, by omega⟩

/-- Witness for C18: two provinces of size `100` by `100` side by side; the point `(150, 80)`
lies in the second one (`k = 1`), in its bottom right quarter. -/
theorem getGlobalQuarter_spec_witness :
    ∃ localPoint : Int2,
      globalPointToLocal ⟨150, 80⟩ (provinceRectOf ⟨100, 0, 100, 100⟩) = .ok localPoint ∧
      getGlobalQuarter Rect.contains [⟨0, 0, 100, 100⟩, ⟨100, 0, 100, 100⟩] ⟨150, 80⟩
        = .ok (4 * ((1 : Nat) : Int) + quarterOf localPoint) ∧
      4 * ((1 : Nat) : Int) ≤ 4 * ((1 : Nat) : Int) + quarterOf localPoint ∧
      4 * ((1 : Nat) : Int) + quarterOf localPoint ≤ 4 * ((1 : Nat) : Int) + 3 ∧
      0 ≤ 4 * ((1 : Nat) : Int) + quarterOf localPoint ∧
      4 * ((1 : Nat) : Int) + quarterOf localPoint
        < 4 * (([⟨0, 0, 100, 100⟩, ⟨100, 0, 100, 100⟩] : List ProvinceData).length : Int) :=
  getGlobalQuarter_spec Rect.contains [⟨0, 0, 100, 100⟩, ⟨100, 0, 100, 100⟩] ⟨150, 80⟩ 1
    ⟨100, 0, 100, 100⟩ (by decide) (by rfl) (by decide)
    (fun j other hj hjo => by
      have hj0 : j = 0 := by omega
      subst hj0
      simp only [List.getElem?_cons_zero, Option.some.injEq] at hjo
      subst hjo
      decide)
    (by decide) (by decide)

end GlobalQuarterClaim

section DoubleClaims

/-- On numbers and without rounding, the NaN-aware `fullAtan2` is the exact one. -/
theorem fullAtan2_num (atan2 : ℝ → ℝ → ℝ) (TwoPi y x : ℝ) :
    WithNaN.fullAtan2 id (Dbl.lift2 atan2) (.num TwoPi) (.num y) (.num x)
      = .num (fullAtan2 atan2 TwoPi y x) := by
  unfold WithNaN.fullAtan2 fullAtan2
  by_cases h : atan2 y x ≥ 0
  · simp [Dbl.lift2, Dbl.ge, h]
  · simp [Dbl.lift2, Dbl.ge, Dbl.add, h]

/-- C9 (counterexample): for a NaN argument `atan2` is NaN, the test `angle >= 0.0` fails and
`TwoPi + angle` is NaN, so `fullAtan2` returns NaN, which is neither `>= 0` nor `< 2 * pi`. -/
theorem fullAtan2_nan_argument :
    WithNaN.fullAtan2 id (Dbl.lift2 (fun b a => Complex.arg ⟨a, b⟩)) (.num (2 * Real.pi))
      .nan (.num 1) = .nan ∧
    Dbl.ge (Dbl.nan : Dbl ℝ) (.num 0) = false ∧
    Dbl.lt (Dbl.nan : Dbl ℝ) (.num (2 * Real.pi)) = false :=
  ⟨rfl, rfl, rfl⟩

/-- C9 (amended): when `atan2 y x` is NaN, `fullAtan2 y x` is NaN. When it is a number `v`
(of magnitude at most `TwoPi`), `fullAtan2 y x` is `v` if `v >= 0` and the rounded sum
`TwoPi + v` otherwise, and lies in the closed range `[0, TwoPi]`, for every monotone rounding
that keeps `0` and `TwoPi`. In exact arithmetic, with `atan2 y x` the argument of the point
`(x, y)` and `TwoPi = 2 * pi`, the result lies in `[0, 2 * pi)`, is congruent to `atan2 y x`
modulo `2 * pi`, and `fullAtan2 (-1) 0 = 3 * pi / 2`. -/
theorem fullAtan2_double_range :
    (∀ (round : ℝ → ℝ) (atan2 : Dbl ℝ → Dbl ℝ → Dbl ℝ) (TwoPi : ℝ) (y x : Dbl ℝ),
      Monotone round → round 0 = 0 → round TwoPi = TwoPi →
      (∀ v : ℝ, atan2 y x = .num v → -TwoPi ≤ v ∧ v ≤ TwoPi) →
      (atan2 y x = .nan → WithNaN.fullAtan2 round atan2 (.num TwoPi) y x = .nan) ∧
      (∀ v : ℝ, atan2 y x = .num v →
        ∃ r : ℝ, WithNaN.fullAtan2 round atan2 (.num TwoPi) y x = .num r ∧
          0 ≤ r ∧ r ≤ TwoPi ∧ r = (if 0 ≤ v then v else round (TwoPi + v)))) ∧
    (∀ y x : ℝ, ∃ r : ℝ,
      WithNaN.fullAtan2 id (Dbl.lift2 (fun b a => Complex.arg ⟨a, b⟩)) (.num (2 * Real.pi))
        (.num y) (.num x) = .num r ∧
      0 ≤ r ∧ r < 2 * Real.pi ∧
      r = (if 0 ≤ Complex.arg ⟨x, y⟩ then Complex.arg ⟨x, y⟩
        else Complex.arg ⟨x, y⟩ + 2 * Real.pi) ∧
      ∃ k : ℤ, r = Complex.arg ⟨x, y⟩ + k * (2 * Real.pi)) ∧
    WithNaN.fullAtan2 id (Dbl.lift2 (fun b a => Complex.arg ⟨a, b⟩)) (.num (2 * Real.pi))
      (.num (-1)) (.num 0) = .num (3 * Real.pi / 2) := by
  refine ⟨?_, ?_, ?_⟩
  · intro round atan2 TwoPi y x hmono h0 hT hrange
    refine ⟨?_, ?_⟩
    · intro hnan
      unfold WithNaN.fullAtan2
      simp [hnan, Dbl.ge, Dbl.add]
    · intro v hv
      obtain ⟨hlo, hhi⟩ := hrange v hv
      unfold WithNaN.fullAtan2
      by_cases hv0 : 0 ≤ v
      · refine ⟨v, ?_, hv0, hhi, ?_⟩
        · simp [hv, Dbl.ge, hv0]
        · rw [if_pos hv0]
      · refine ⟨round (TwoPi + v), ?_, ?_, ?_, ?_⟩
        · simp [hv, Dbl.ge, Dbl.add, hv0]
        · have hsum : 0 ≤ TwoPi + v := by linarith
          have hr := hmono hsum
          rwa [h0] at hr
        · have hsum : TwoPi + v ≤ TwoPi := by linarith [not_le.mp hv0]
          have hr := hmono hsum
          rwa [hT] at hr
        · rw [if_neg hv0]
  · intro y x
    obtain ⟨h1, h2, h3, h4, _⟩ := fullAtan2_range y x
    exact ⟨_, fullAtan2_num _ _ _ _, h1, h2, h3, h4⟩
  · rw [fullAtan2_num]
    exact congrArg Dbl.num (fullAtan2_range 0 0).2.2.2.2

/-- Witness for C9: with exact arithmetic, `atan2 (-1) 0 = -pi / 2` is a number of magnitude
at most `2 * pi`, and the result is a number in `[0, 2 * pi]`. -/
theorem fullAtan2_double_range_witness :
    ∃ r : ℝ, WithNaN.fullAtan2 id (Dbl.lift2 (fun b a => Complex.arg ⟨a, b⟩))
        (.num (2 * Real.pi)) (.num (-1)) (.num 0) = .num r ∧
      0 ≤ r ∧ r ≤ 2 * Real.pi ∧
      r = (if 0 ≤ Complex.arg ⟨0, -1⟩ then Complex.arg ⟨0, -1⟩
        else id (2 * Real.pi + Complex.arg ⟨0, -1⟩)) :=
  (fullAtan2_double_range.1 id (Dbl.lift2 (fun b a => Complex.arg ⟨a, b⟩)) (2 * Real.pi)
    (.num (-1)) (.num 0) monotone_id rfl rfl
    (fun v hv => by
      have hv' : Complex.arg ⟨0, -1⟩ = v := Dbl.num.inj hv
      have hlo := Complex.neg_pi_lt_arg ⟨0, -1⟩
      have hhi := Complex.arg_le_pi ⟨0, -1⟩
      have hpi := Real.pi_pos
      rw [← hv']
      constructor <;> linarith)).2 (Complex.arg ⟨0, -1⟩) rfl

/-- C11 (counterexample): with `fovY` NaN the first assertion `fovY > 0.0` fails, although
none of `fovY <= 0`, `fovY >= 180`, `aspectRatio <= 0` holds. -/
theorem verticalFovToHorizontalFov_nan_argument :
    WithNaN.verticalFovToHorizontalFov id (Dbl.lift Real.tan) (Dbl.lift Real.arctan)
      (.num (Real.pi / 180)) (.num (180 / Real.pi)) .nan (.num 1) = .error .assertion ∧
    Dbl.le (Dbl.nan : Dbl ℝ) (.num 0) = false ∧
    Dbl.ge (Dbl.nan : Dbl ℝ) (.num 180) = false ∧
    Dbl.le (Dbl.num 1 : Dbl ℝ) (.num 0) = false := by
  refine ⟨rfl, rfl, rfl, ?_⟩
  simp [Dbl.le]

/-- C11 (amended): `verticalFovToHorizontalFov fovY aspectRatio` fails a precondition
assertion exactly when `fovY` or `aspectRatio` is NaN or `fovY <= 0` or `fovY >= 180` or
`aspectRatio <= 0`. For numbers with `0 < fovY < 180` and `aspectRatio > 0` it returns
`2 * atan (aspectRatio * tan (fovY / 2 in radians))` converted to degrees, each product
rounded; in exact arithmetic, with the real `tan` and `atan`, `DegToRad = pi / 180` and
`RadToDeg = 180 / pi`, that value is strictly between `0` and `180`. -/
theorem verticalFovToHorizontalFov_double_spec :
    (∀ (round : ℝ → ℝ) (tan atan : Dbl ℝ → Dbl ℝ) (DegToRad RadToDeg fovY aspectRatio : Dbl ℝ),
      WithNaN.verticalFovToHorizontalFov round tan atan DegToRad RadToDeg fovY aspectRatio
          = .error .assertion ↔
        (fovY = .nan ∨ aspectRatio = .nan ∨ Dbl.le fovY (.num 0) = true ∨
          Dbl.ge fovY (.num 180) = true ∨ Dbl.le aspectRatio (.num 0) = true)) ∧
    (∀ (round : ℝ → ℝ) (tan atan : Dbl ℝ → Dbl ℝ) (DegToRad RadToDeg : Dbl ℝ)
        (fovY aspectRatio : ℝ), 0 < fovY → fovY < 180 → 0 < aspectRatio →
      WithNaN.verticalFovToHorizontalFov round tan atan DegToRad RadToDeg
          (.num fovY) (.num aspectRatio)
        = .ok (Dbl.mul round (Dbl.mul round (.num 2)
            (atan (Dbl.mul round (.num aspectRatio)
              (tan (Dbl.mul round (.num (round (fovY * (1 / 2)))) DegToRad))))) RadToDeg)) ∧
    (∀ fovY aspectRatio : ℝ, 0 < fovY → fovY < 180 → 0 < aspectRatio →
      WithNaN.verticalFovToHorizontalFov id (Dbl.lift Real.tan) (Dbl.lift Real.arctan)
          (.num (Real.pi / 180)) (.num (180 / Real.pi)) (.num fovY) (.num aspectRatio)
        = .ok (.num (2 * Real.arctan (aspectRatio * Real.tan (fovY / 2 * (Real.pi / 180)))
            * (180 / Real.pi))) ∧
      0 < 2 * Real.arctan (aspectRatio * Real.tan (fovY / 2 * (Real.pi / 180)))
            * (180 / Real.pi) ∧
      2 * Real.arctan (aspectRatio * Real.tan (fovY / 2 * (Real.pi / 180)))
            * (180 / Real.pi) < 180) := by
  refine ⟨?_, ?_, ?_⟩
  · intro round tan atan DegToRad RadToDeg fovY aspectRatio
    unfold WithNaN.verticalFovToHorizontalFov
    cases fovY with
    | nan => simp [Dbl.gt]
    | num f =>
      cases aspectRatio with
      | nan =>
        by_cases h0 : 0 < f
        · by_cases h1 : f < 180
          · simp [Dbl.gt, Dbl.lt, h0, h1]
          · simp [Dbl.gt, Dbl.lt, h0, h1]
        · simp [Dbl.gt, h0]
      | num a =>
        by_cases h0 : 0 < f
        · by_cases h1 : f < 180
          · by_cases h2 : 0 < a
            · simp [Dbl.gt, Dbl.lt, Dbl.le, Dbl.ge, h0, h1, h2]
            · simp [Dbl.gt, Dbl.lt, Dbl.le, Dbl.ge, h0, h1, h2]
              exact Or.inr (Or.inr (not_lt.mp h2))
          · simp [Dbl.gt, Dbl.lt, Dbl.le, Dbl.ge, h0, h1]
            exact Or.inr (Or.inl (not_lt.mp h1))
        · simp [Dbl.gt, Dbl.le, Dbl.ge, h0]
          exact Or.inl (not_lt.mp h0)
  · intro round tan atan DegToRad RadToDeg fovY aspectRatio h0 h1 h2
    unfold WithNaN.verticalFovToHorizontalFov
    simp [Dbl.gt, Dbl.lt, Dbl.mul, h0, h1, h2]
  · intro fovY aspectRatio h0 h1 h2
    obtain ⟨hval, hlo, hhi⟩ := (verticalFovToHorizontalFov_spec fovY aspectRatio).2 h0 h1 h2
    refine ⟨?_, hlo, hhi⟩
    have harg : fovY * (1 / 2) * (Real.pi / 180) = fovY / 2 * (Real.pi / 180) := by ring
    unfold WithNaN.verticalFovToHorizontalFov
    simp only [Dbl.gt, Dbl.lt, Dbl.mul, Dbl.lift, gt_iff_lt, h0, h1, h2, decide_True,
      not_true_eq_false, if_false, id, harg]

/-- Witness for C11: a vertical field of view of `90` degrees at aspect ratio `2`. -/
theorem verticalFovToHorizontalFov_double_spec_witness :
    WithNaN.verticalFovToHorizontalFov id (Dbl.lift Real.tan) (Dbl.lift Real.arctan)
        (.num (Real.pi / 180)) (.num (180 / Real.pi)) (.num 90) (.num 2)
      = .ok (.num (2 * Real.arctan (2 * Real.tan (90 / 2 * (Real.pi / 180)))
          * (180 / Real.pi))) :=
  (verticalFovToHorizontalFov_double_spec.2.2 90 2 (by norm_num) (by norm_num)
    (by norm_num)).1

end DoubleClaims

end OpenTESArena
